import Mathlib

/-!
# Verification of the DrugBank MCP server core

Shallow embedding, in Lean 4, of the core components of the
`drugbank-mcp-server` repository:

* the Half-Life Normalizer (`parseHalfLifeToHours` in the database builder
  and in the `migrate-halflife` migration script; both copies are textually
  identical),
* the SQLite-backed query engine (`drugbank-parser-sqlite.js`):
  `getDrugById`, `searchDrugsByTarget`, `searchDrugsByCategory`,
  `searchDrugsByCarrier`, `searchDrugsByTransporter`,
  `searchDrugsByHalfLife`, `findSimilarDrugs`, `jaccardSimilarity`,
  `parseDrugRow`, `safeJsonParse`,
* the streaming ingestion pipeline of the database builder
  (`xml.on('endElement: drug')`, `insertOneDrug`, `getPrimaryDrugBankId`,
  the `seenIds` dedup set, and the SQLite schema constraints of the
  `drugs` table).

Numbers are modelled by `ℚ` (the JavaScript sources compute with IEEE
doubles; every concrete value exercised here is exactly representable in
both).  JavaScript string lowercasing is modelled by ASCII lowercasing,
which agrees with `String.prototype.toLowerCase` and with SQLite's
`LOWER`/`LIKE` on the ASCII strings handled here.
-/

/-! ## Half-Life Normalizer

Model of `parseHalfLifeToHours` (scripts/build-db.js and
scripts/migrate-halflife.js; the two copies are identical).  The JS
function lowercases and trims the input, then tries four regular
expressions in a fixed order; the first that matches anywhere in the
string wins.  The regexes are simple enough that greedy matching without
backtracking is exact (each repeated class is disjoint from what follows
it, and no alternative of the unit / approximation alternations is a
prefix of another), so each pattern is modelled by a deterministic
scanner that tries every start position from the left, exactly like the
leftmost-match rule of `String.prototype.match`. -/

/-- JS `\s` (the whitespace characters that occur in practice). -/
def isWsChar (c : Char) : Bool :=
  c = ' ' || c = '\t' || c = '\n' || c = '\r'

/-- JS `\d` is exactly the ASCII digits. -/
def isDigitChar (c : Char) : Bool :=
  '0' ≤ c && c ≤ '9'

/-- ASCII lowercasing: what SQLite `LOWER` does, and what
`String.prototype.toLowerCase` does on ASCII input. -/
def lowerChar (c : Char) : Char := c.toLower

/-- Lowercase a whole string (JS `s.toLowerCase()` on ASCII data). -/
def strLower (s : String) : String := ⟨s.data.map lowerChar⟩

/-- JS `String.prototype.trim` (drop whitespace at both ends). -/
def trimChars (cs : List Char) : List Char :=
  ((cs.dropWhile isWsChar).reverse.dropWhile isWsChar).reverse

/-- Numeric value of a digit list. -/
def digitsVal (ds : List Char) : ℕ :=
  ds.foldl (fun n c => 10 * n + (c.toNat - '0'.toNat)) 0

/-- The digits captured by `\d+(?:\.\d+)?`: integer part, fractional
digits value, and number of fractional digits (so "3.5" is `⟨3, 5, 1⟩`).
Kept in `ℕ` form so that scanning is kernel-computable; the `ℚ` value
`parseFloat` yields is assembled afterwards by `decNumVal`. -/
structure DecNum where
  ip : ℕ
  fp : ℕ
  fl : ℕ
  deriving DecidableEq, Repr

/-- The numeric value of a captured numeral (what `parseFloat` returns
on the matched text). -/
def decNumVal (n : DecNum) : ℚ :=
  (n.ip : ℚ) + (n.fp : ℚ) / ((10 : ℚ) ^ n.fl)

/-- Greedy match of `\d+(?:\.\d+)?` at the current position: the
captured numeral plus the rest of the input.  Fails if the position does
not start with a digit. -/
def numTok (cs : List Char) : Option (DecNum × List Char) :=
  let ds := cs.takeWhile isDigitChar
  if ds = [] then none
  else
    let rest := cs.drop ds.length
    match rest with
    | '.' :: r2 =>
        let fs := r2.takeWhile isDigitChar
        if fs = [] then some (⟨digitsVal ds, 0, 0⟩, rest)
        else some (⟨digitsVal ds, digitsVal fs, fs.length⟩, r2.drop fs.length)
    | _ => some (⟨digitsVal ds, 0, 0⟩, rest)

/-- Greedy `\s*`. -/
def skipWs (cs : List Char) : List Char := cs.dropWhile isWsChar

/-- Greedy `[..]+` for a character class `p`: requires at least one
class character and consumes the maximal run. -/
def classPlus (p : Char → Bool) (cs : List Char) : Option (List Char) :=
  if cs.takeWhile p = [] then none else some (cs.dropWhile p)

/-- Does `pat` occur literally at the head of `cs`?  If so return the
rest. -/
def leadMatch (pat : List Char) (cs : List Char) : Option (List Char) :=
  match pat, cs with
  | [], rest => some rest
  | _ :: _, [] => none
  | p :: ps, c :: cs' => if p = c then leadMatch ps cs' else none

/-- The unit alternation
`(hours?|hrs?|h|minutes?|mins?|min|days?|d|weeks?|wks?|w)`, expanded in
the order the regex engine tries the alternatives (greedy `s?` first). -/
def unitAlternatives : List String :=
  ["hours", "hour", "hrs", "hr", "h",
   "minutes", "minute", "mins", "min", "min",
   "days", "day", "d",
   "weeks", "week", "wks", "wk", "w"]

/-- First alternative of a literal alternation that matches at the head
of `cs`. -/
def altTok (alts : List String) (cs : List Char) : Option (String × List Char) :=
  match alts with
  | [] => none
  | a :: rest =>
    match leadMatch a.data cs with
    | some r => some (a, r)
    | none => altTok rest cs

/-- The character class `[-–to]` of the range pattern. -/
def rangeSepChar (c : Char) : Bool :=
  c = '-' || c = '–' || c = 't' || c = 'o'

/-- The character class `[±\+\-\/]` of the plus/minus pattern. -/
def pmChar (c : Char) : Bool :=
  c = '±' || c = '+' || c = '-' || c = '/'

/-- Pattern 1 at a fixed position:
`(\d+(?:\.\d+)?)\s*[-–to]+\s*(\d+(?:\.\d+)?)\s*(unit)`. -/
def pat1At (cs : List Char) : Option (DecNum × DecNum × String) := do
  let (v1, r1) ← numTok cs
  let r2 ← classPlus rangeSepChar (skipWs r1)
  let (v2, r3) ← numTok (skipWs r2)
  let (u, _) ← altTok unitAlternatives (skipWs r3)
  pure (v1, v2, u)

/-- Pattern 2 at a fixed position:
`(\d+(?:\.\d+)?)\s*[±\+\-\/]\s*(\d+(?:\.\d+)?)\s*(unit)` (the class
matches exactly one character). -/
def pat2At (cs : List Char) : Option (DecNum × DecNum × String) := do
  let (v1, r1) ← numTok cs
  match skipWs r1 with
  | [] => none
  | c :: r2 =>
    if pmChar c then do
      let (v2, r3) ← numTok (skipWs r2)
      let (u, _) ← altTok unitAlternatives (skipWs r3)
      pure (v1, v2, u)
    else none

/-- Pattern 3 at a fixed position: `(\d+(?:\.\d+)?)\s*(unit)`. -/
def pat3At (cs : List Char) : Option (DecNum × String) := do
  let (v, r1) ← numTok cs
  let (u, _) ← altTok unitAlternatives (skipWs r1)
  pure (v, u)

/-- The approximation-prefix alternation of pattern 4. -/
def approxAlternatives : List String :=
  ["approximately", "about", "~", "circa", "around"]

/-- Pattern 4 at a fixed position:
`(?:approximately|about|~|circa|around)\s*(\d+(?:\.\d+)?)\s*(unit)`. -/
def pat4At (cs : List Char) : Option (DecNum × String) := do
  let (_, r0) ← altTok approxAlternatives cs
  let (v, r1) ← numTok (skipWs r0)
  let (u, _) ← altTok unitAlternatives (skipWs r1)
  pure (v, u)

/-- Leftmost match: try the position-local matcher at every start
position from the left (the semantics of an unanchored `text.match`). -/
def scanFor {α : Type} (m : List Char → Option α) : List Char → Option α
  | [] => m []
  | c :: cs =>
    match m (c :: cs) with
    | some r => some r
    | none => scanFor m cs

/-- Unit conversion of the JS function: the captured unit is tested
against `^(minutes?|mins?|min)$`, `^(days?|d)$`, `^(weeks?|wks?|w)$`,
anything else is hours. -/
def unitToHours (v : ℚ) (u : String) : ℚ :=
  if u = "minutes" || u = "minute" || u = "mins" || u = "min" then v / 60
  else if u = "days" || u = "day" || u = "d" then v * 24
  else if u = "weeks" || u = "week" || u = "wks" || u = "wk" || u = "w" then v * 24 * 7
  else v

/-- The captures of the first regex that matches: two numerals plus a
unit (patterns 1 and 2, i.e. `match.length === 4` in the JS code) or one
numeral plus a unit (patterns 3 and 4). -/
inductive HLCap where
  | two (a b : DecNum) (u : String)
  | one (a : DecNum) (u : String)
  deriving DecidableEq, Repr

/-- The pattern-priority part of `parseHalfLifeToHours`: lowercase and
trim, then try the four patterns in order and return the first match's
captures. -/
def halfLifeMatch (s : String) : Option HLCap :=
  if s = "" then none
  else
    let text := trimChars (s.data.map lowerChar)
    match scanFor pat1At text with
    | some (a, b, u) => some (.two a b u)
    | none =>
      match scanFor pat2At text with
      | some (a, b, u) => some (.two a b u)
      | none =>
        match scanFor pat3At text with
        | some (a, u) => some (.one a u)
        | none =>
          match scanFor pat4At text with
          | some (a, u) => some (.one a u)
          | none => none

/-- Model of `parseHalfLifeToHours(halfLifeText)`: a three-capture match
(patterns 1 and 2, `match.length === 4`) averages the two numbers, a
two-capture match (patterns 3 and 4) takes the single number; the unit
is then converted to hours.  Returns `none` ("null") when nothing
matches or the input is empty. -/
def parseHalfLifeToHours (s : String) : Option ℚ :=
  (halfLifeMatch s).map fun m =>
    match m with
    | .two a b u => unitToHours ((decNumVal a + decNumVal b) / 2) u
    | .one a u => unitToHours (decNumVal a) u

/-- Evaluation lemma: the unit token "hours" converts by the identity. -/
theorem unitToHours_hours (v : ℚ) : unitToHours v "hours" = v := rfl

/-- Evaluation lemma: the unit token "minutes" divides by 60. -/
theorem unitToHours_minutes (v : ℚ) : unitToHours v "minutes" = v / 60 := rfl

/-- Evaluation lemma: the unit token "days" multiplies by 24. -/
theorem unitToHours_days (v : ℚ) : unitToHours v "days" = v * 24 := rfl

/-- Claim C1, counterexample: the input "25 ± 10 hours" is captured by
the plus/minus pattern, whose two captured numbers are averaged exactly
like a range, giving (25 + 10) / 2 = 17.5 hours — not the 25.0 the
specification's test table states. -/
theorem c1_counterexample :
    parseHalfLifeToHours "25 ± 10 hours" = some (35 / 2) ∧ ((35 : ℚ) / 2) ≠ 25 := by
  constructor
  · simp only [parseHalfLifeToHours,
      show halfLifeMatch "25 ± 10 hours" =
        some (.two ⟨25, 0, 0⟩ ⟨10, 0, 0⟩ "hours") from by decide,
      Option.map_some', unitToHours_hours]
    norm_num [decNumVal]
  · norm_num

/-- Claim C1 as amended: "4-5 hours" parses to 4.5 (midpoint), "25 ± 10
hours" parses to 17.5 (the code averages the two captured numbers of a
± pattern exactly like a range), "10 minutes" to 1/6, "2 days" to 48,
and text matching no pattern parses to null. -/
theorem c1_amended :
    parseHalfLifeToHours "4-5 hours" = some (9 / 2) ∧
    parseHalfLifeToHours "25 ± 10 hours" = some (35 / 2) ∧
    parseHalfLifeToHours "10 minutes" = some (1 / 6) ∧
    parseHalfLifeToHours "2 days" = some 48 ∧
    parseHalfLifeToHours "unparseable gibberish" = none := by
  refine ⟨?_, ?_, ?_, ?_, ?_⟩
  · simp only [parseHalfLifeToHours,
      show halfLifeMatch "4-5 hours" = some (.two ⟨4, 0, 0⟩ ⟨5, 0, 0⟩ "hours") from by decide,
      Option.map_some', unitToHours_hours]
    norm_num [decNumVal]
  · simp only [parseHalfLifeToHours,
      show halfLifeMatch "25 ± 10 hours" =
        some (.two ⟨25, 0, 0⟩ ⟨10, 0, 0⟩ "hours") from by decide,
      Option.map_some', unitToHours_hours]
    norm_num [decNumVal]
  · simp only [parseHalfLifeToHours,
      show halfLifeMatch "10 minutes" = some (.one ⟨10, 0, 0⟩ "minutes") from by decide,
      Option.map_some', unitToHours_minutes]
    norm_num [decNumVal]
  · simp only [parseHalfLifeToHours,
      show halfLifeMatch "2 days" = some (.one ⟨2, 0, 0⟩ "days") from by decide,
      Option.map_some', unitToHours_days]
    norm_num [decNumVal]
  · simp only [parseHalfLifeToHours,
      show halfLifeMatch "unparseable gibberish" = none from by decide,
      Option.map_none']

/-! ## Query engine data model

Typed model of the SQLite store as written by the database builder: the
`drugs` table (with the columns the verified operations read; JSON
columns appear already decoded, exactly as `parseDrugRow` delivers them
for rows serialized by the builder) and the searchable child tables
`drug_targets`, `drug_categories`, `drug_carriers`,
`drug_transporters`.  The corrupt-JSON path of `parseDrugRow` /
`safeJsonParse` is modelled separately at the raw-text level further
below. -/

/-- One entry of a drug's JSON `targets` column (the shape
`extractTargets` serializes). -/
structure TargetEntry where
  id : Option String
  name : Option String
  organism : Option String
  known_action : Option String
  deriving DecidableEq, Repr

/-- A row of the `drugs` table (the columns read by the verified
operations; `targets`, `categories` and `atc_codes` are the decoded
JSON columns). -/
structure DrugRow where
  drugbank_id : String
  name : Option String
  half_life : Option String
  half_life_hours : Option ℚ
  targets : List TargetEntry
  categories : List String
  atc_codes : List String
  deriving DecidableEq, Repr

/-- A row of `drug_targets`. -/
structure TargetRow where
  drug_id : String
  target_name : String
  organism : Option String
  deriving DecidableEq, Repr

/-- A row of `drug_categories`. -/
structure CategoryRow where
  drug_id : String
  category : String
  deriving DecidableEq, Repr

/-- A row of `drug_carriers`. -/
structure CarrierRow where
  drug_id : String
  carrier_id : Option String
  carrier_name : String
  organism : Option String
  known_action : Option String
  deriving DecidableEq, Repr

/-- A row of `drug_transporters`. -/
structure TransporterRow where
  drug_id : String
  transporter_id : Option String
  transporter_name : String
  organism : Option String
  known_action : Option String
  deriving DecidableEq, Repr

/-- The relational store, each table in row order. -/
structure DrugDB where
  drugs : List DrugRow
  drug_targets : List TargetRow
  drug_categories : List CategoryRow
  drug_carriers : List CarrierRow
  drug_transporters : List TransporterRow
  deriving DecidableEq, Repr

/-- First-occurrence deduplication with an accumulator of already-seen
elements: the iteration order of a JavaScript `Set` and the row set of
SQL `SELECT DISTINCT` (SQLite preserves first encounter order here). -/
def dedupAux [DecidableEq α] (seen : List α) : List α → List α
  | [] => []
  | x :: l => if x ∈ seen then dedupAux seen l else x :: dedupAux (x :: seen) l

/-- First-occurrence deduplication of a list. -/
def dedupKeepFirst [DecidableEq α] (l : List α) : List α := dedupAux [] l

/-- Stable descending insertion by a `ℚ` key: the new element goes in
front of the first element with a key not larger than its own, i.e.
after all earlier elements with an equal key. -/
def insDescBy (k : α → ℚ) (x : α) : List α → List α
  | [] => [x]
  | y :: l => if k y ≤ k x then x :: y :: l else y :: insDescBy k x l

/-- Stable descending sort by a `ℚ` key: the behaviour of JavaScript's
(stable) `Array.prototype.sort` with comparator `(a, b) => k b - k a`. -/
def sortDescBy (k : α → ℚ) : List α → List α
  | [] => []
  | x :: l => insDescBy k x (sortDescBy k l)

/-- Stable ascending insertion by a `ℚ` key. -/
def insAscBy (k : α → ℚ) (x : α) : List α → List α
  | [] => [x]
  | y :: l => if k x ≤ k y then x :: y :: l else y :: insAscBy k x l

/-- Stable ascending sort by a `ℚ` key (one concrete refinement of
SQLite's `ORDER BY ... ASC`, which promises only sortedness). -/
def sortAscBy (k : α → ℚ) : List α → List α
  | [] => []
  | x :: l => insAscBy k x (sortAscBy k l)

/-- SQLite `LIKE` with fuel (each step consumes at least one pattern or
text character, so `p.length + t.length + 1` fuel always suffices):
`%` matches any run, `_` any single character, anything else matches
case-insensitively (ASCII, as SQLite does by default). -/
def likeMatchF : ℕ → List Char → List Char → Bool
  | 0, _, _ => false
  | _ + 1, [], ts => ts.isEmpty
  | f + 1, p :: ps, ts =>
    if p = '%' then
      likeMatchF f ps ts ||
        (match ts with
         | [] => false
         | _ :: ts' => likeMatchF f (p :: ps) ts')
    else
      match ts with
      | [] => false
      | t :: ts' =>
        (if p = '_' then true else lowerChar p = lowerChar t) && likeMatchF f ps ts'

/-- SQLite `LIKE pattern` applied to a text. -/
def likeMatch (pat text : List Char) : Bool :=
  likeMatchF (pat.length + text.length + 1) pat text

/-- The pattern `'%' + q + '%'` that every search method of the query
engine binds. -/
def likePat (q : List Char) : List Char := '%' :: (q ++ ['%'])

/-- `SELECT * FROM drugs WHERE drugbank_id = ?` (`stmt.get` returns the
first matching row) — the core of `getDrugById`. -/
def getDrugById (db : DrugDB) (id : String) : Option DrugRow :=
  db.drugs.find? (fun d => d.drugbank_id == id)

/-- Sort key for `ORDER BY half_life_hours` (rows reaching the sort all
have a non-null value). -/
def hlKey (d : DrugRow) : ℚ := d.half_life_hours.getD 0

/-- Model of `searchDrugsByHalfLife(minHours, maxHours, limit)`: four
prepared statements, one per combination of present bounds, each
filtering `half_life_hours IS NOT NULL` plus the inclusive bounds,
ordering ascending by `half_life_hours` and truncating to `limit`. -/
def searchDrugsByHalfLife (db : DrugDB) (minH maxH : Option ℚ) (limit : ℕ) : List DrugRow :=
  match minH, maxH with
  | some m, some M =>
    (sortAscBy hlKey (db.drugs.filter (fun d =>
      match d.half_life_hours with
      | some v => decide (m ≤ v) && decide (v ≤ M)
      | none => false))).take limit
  | some m, none =>
    (sortAscBy hlKey (db.drugs.filter (fun d =>
      match d.half_life_hours with
      | some v => decide (m ≤ v)
      | none => false))).take limit
  | none, some M =>
    (sortAscBy hlKey (db.drugs.filter (fun d =>
      match d.half_life_hours with
      | some v => decide (v ≤ M)
      | none => false))).take limit
  | none, none =>
    (sortAscBy hlKey (db.drugs.filter (fun d => d.half_life_hours.isSome))).take limit

/-- The target-name normalization both sides of the target search use:
lowercase and replace every hyphen by a space (JS
`target.toLowerCase()` plus a global hyphen-to-space `replace` on the
query, SQL `LOWER(REPLACE(target_name, '-', ' '))` on the column). -/
def normTarget (s : String) : List Char :=
  (s.data.map lowerChar).map (fun c => if c = '-' then ' ' else c)

/-- Model of `searchDrugsByTarget(target, limit)`:
`SELECT DISTINCT drugs.* FROM drug_targets JOIN drugs ON
drug_targets.drug_id = drugs.drugbank_id WHERE
LOWER(REPLACE(target_name, '-', ' ')) LIKE '%' + normalized + '%'
LIMIT limit`. -/
def searchDrugsByTarget (db : DrugDB) (target : String) (limit : ℕ) : List DrugRow :=
  let normalizedTarget := normTarget target
  (dedupKeepFirst
    ((db.drug_targets.filter
        (fun r => likeMatch (likePat normalizedTarget) (normTarget r.target_name))).flatMap
      (fun r => db.drugs.filter (fun d => d.drugbank_id == r.drug_id)))).take limit

/-- Model of `searchDrugsByCategory(category, limit)`:
`SELECT DISTINCT drugs.* FROM drug_categories JOIN drugs ... WHERE
category LIKE '%' + category + '%' LIMIT limit` (SQLite `LIKE` is
ASCII-case-insensitive on its own; no hyphen normalization here). -/
def searchDrugsByCategory (db : DrugDB) (category : String) (limit : ℕ) : List DrugRow :=
  (dedupKeepFirst
    ((db.drug_categories.filter
        (fun r => likeMatch (likePat category.data) r.category.data)).flatMap
      (fun r => db.drugs.filter (fun d => d.drugbank_id == r.drug_id)))).take limit

/-- One result row of the carrier search: the parent drug row together
with the matched carrier columns the `SELECT` adds. -/
structure CarrierHit where
  drug : DrugRow
  carrier_name : String
  organism : Option String
  known_action : Option String
  deriving DecidableEq, Repr

/-- Model of `searchDrugsByCarrier(carrier, limit)`:
`SELECT DISTINCT drugs.*, dc.carrier_name, dc.organism, dc.known_action
FROM drug_carriers dc JOIN drugs ... WHERE dc.carrier_name LIKE '%..%'
LIMIT limit` — note that `DISTINCT` ranges over the whole selected
tuple, carrier columns included. -/
def searchDrugsByCarrier (db : DrugDB) (carrier : String) (limit : ℕ) : List CarrierHit :=
  (dedupKeepFirst
    ((db.drug_carriers.filter
        (fun r => likeMatch (likePat carrier.data) r.carrier_name.data)).flatMap
      (fun r => (db.drugs.filter (fun d => d.drugbank_id == r.drug_id)).map
        (fun d => ⟨d, r.carrier_name, r.organism, r.known_action⟩)))).take limit

/-- One result row of the transporter search. -/
structure TransporterHit where
  drug : DrugRow
  transporter_name : String
  organism : Option String
  known_action : Option String
  deriving DecidableEq, Repr

/-- Model of `searchDrugsByTransporter(transporter, limit)` (same shape
as the carrier search). -/
def searchDrugsByTransporter (db : DrugDB) (transporter : String) (limit : ℕ) :
    List TransporterHit :=
  (dedupKeepFirst
    ((db.drug_transporters.filter
        (fun r => likeMatch (likePat transporter.data) r.transporter_name.data)).flatMap
      (fun r => (db.drugs.filter (fun d => d.drugbank_id == r.drug_id)).map
        (fun d => ⟨d, r.transporter_name, r.organism, r.known_action⟩)))).take limit

/-! ## Similarity engine

Model of `findSimilarDrugs` and `jaccardSimilarity`.  JavaScript `Set`s
are modelled as first-occurrence-deduplicated lists (`dedupKeepFirst`),
which preserves both membership and the insertion-order iteration that
the candidate bound (`slice(0, 500)`) and the shared-item lists depend
on.  The weights 0.5 / 0.3 / 0.2 are exact rationals here (the JS
doubles differ from these by quantities far below every rounding
boundary exercised). -/

/-- The reference/candidate target-name set:
`new Set(drug.targets.map(t => name, lowercased).filter(Boolean))` —
entries without a name and empty names are dropped. -/
def targetNameSet (d : DrugRow) : List String :=
  dedupKeepFirst ((d.targets.filterMap (fun t => t.name.map strLower)).filter
    (fun s => s ≠ ""))

/-- The category-label set (the decoded `categories` column holds
strings; they are lowercased, empty ones dropped, and deduplicated). -/
def categorySet (d : DrugRow) : List String :=
  dedupKeepFirst ((d.categories.map strLower).filter (fun s => s ≠ ""))

/-- The classification-code prefix set: `substring(0, 5)` of each ATC
code (no lowercasing and no emptiness filter in the source). -/
def atcCodeSet (d : DrugRow) : List String :=
  dedupKeepFirst (d.atc_codes.map (fun c => (⟨c.data.take 5⟩ : String)))

/-- Model of `jaccardSimilarity(setA, setB)`: 0 when both sets are
empty, otherwise |A ∩ B| / |A ∪ B| computed on the deduplicated
lists. -/
def jaccardSimilarity (a b : List String) : ℚ :=
  if a.length = 0 ∧ b.length = 0 then 0
  else ((dedupKeepFirst (a.filter (fun x => b.contains x))).length : ℚ) /
       ((dedupKeepFirst (a ++ b)).length : ℚ)

/-- The specification's Jaccard coefficient |A ∩ B| / |A ∪ B| on finite
sets (with `ℚ`'s zero-denominator convention giving 0 when both are
empty). -/
def jaccardFinset (A B : Finset String) : ℚ :=
  ((A ∩ B).card : ℚ) / ((A ∪ B).card : ℚ)

/-- `Math.round(q * 1000) / 1000` — scores are rounded to 3 decimal
places (`Math.round` rounds half up, as Mathlib's `round` does). -/
def round3 (q : ℚ) : ℚ := ((round (q * 1000) : ℤ) : ℚ) / 1000

/-- The weighted composite of the three Jaccard coefficients:
`targetSim * 0.5 + categorySim * 0.3 + atcSim * 0.2`. -/
def compositeScore (targetSim categorySim atcSim : ℚ) : ℚ :=
  targetSim * (1 / 2) + categorySim * (3 / 10) + atcSim * (1 / 5)

/-- Candidate discovery over shared targets:
`SELECT DISTINCT drug_id FROM drug_targets WHERE LOWER(target_name) IN
(refTargets) AND drug_id != ?` (skipped when the reference set is
empty). -/
def targetCandidates (db : DrugDB) (refT : List String) (refId : String) : List String :=
  if refT.length = 0 then []
  else
    dedupKeepFirst ((db.drug_targets.filter
        (fun r => refT.contains (strLower r.target_name) && r.drug_id != refId)).map
      (fun r => r.drug_id))

/-- Candidate discovery over shared categories:
`SELECT DISTINCT drug_id FROM drug_categories WHERE LOWER(category) IN
(refCategories) AND drug_id != ?`. -/
def categoryCandidates (db : DrugDB) (refC : List String) (refId : String) : List String :=
  if refC.length = 0 then []
  else
    dedupKeepFirst ((db.drug_categories.filter
        (fun r => refC.contains (strLower r.category) && r.drug_id != refId)).map
      (fun r => r.drug_id))

/-- One scored similarity result (the object pushed onto
`scoredDrugs`). -/
structure ScoredDrug where
  drug : DrugRow
  similarity_score : ℚ
  target_similarity : ℚ
  category_similarity : ℚ
  atc_similarity : ℚ
  shared_targets : List String
  shared_categories : List String
  deriving DecidableEq, Repr

/-- Scoring of one candidate (the loop body of `findSimilarDrugs`):
compute the three Jaccard coefficients and the weighted composite, keep
the candidate only when the composite is positive, rounding every
reported score to 3 decimals. -/
def scoreCandidate (refT refC refA : List String) (cand : DrugRow) : Option ScoredDrug :=
  let cT := targetNameSet cand
  let cC := categorySet cand
  let cA := atcCodeSet cand
  let targetSim := jaccardSimilarity refT cT
  let categorySim := jaccardSimilarity refC cC
  let atcSim := jaccardSimilarity refA cA
  let score := compositeScore targetSim categorySim atcSim
  if 0 < score then
    some { drug := cand
           similarity_score := round3 score
           target_similarity := round3 targetSim
           category_similarity := round3 categorySim
           atc_similarity := round3 atcSim
           shared_targets := refT.filter (fun t => cT.contains t)
           shared_categories := refC.filter (fun c => cC.contains c) }
  else none

/-- Model of `findSimilarDrugs(drugbankId, limit)`: fetch the reference
record (empty result when absent), build its three sets (empty result
when all three are empty), collect candidates sharing a target or a
category (insertion-ordered union of the two `DISTINCT` queries, empty
result when none), score the first 500 candidates, keep positive
composites, sort descending by the rounded composite score (stably) and
truncate to `limit` (`findSimilarRef` is the body that runs once the
reference record has been fetched). -/
def findSimilarRef (db : DrugDB) (drugbankId : String) (limit : ℕ)
    (refDrug : DrugRow) : List ScoredDrug :=
  if (targetNameSet refDrug).length = 0 ∧ (categorySet refDrug).length = 0 ∧
      (atcCodeSet refDrug).length = 0 then []
  else
    let candidateIds :=
      dedupKeepFirst (targetCandidates db (targetNameSet refDrug) drugbankId ++
        categoryCandidates db (categorySet refDrug) drugbankId)
    if candidateIds.length = 0 then []
    else
      let scored := (candidateIds.take 500).filterMap
        (fun cid => (getDrugById db cid).bind
          (scoreCandidate (targetNameSet refDrug) (categorySet refDrug) (atcCodeSet refDrug)))
      (sortDescBy (fun s => s.similarity_score) scored).take limit

def findSimilarDrugs (db : DrugDB) (drugbankId : String) (limit : ℕ) : List ScoredDrug :=
  match getDrugById db drugbankId with
  | none => []
  | some refDrug => findSimilarRef db drugbankId limit refDrug

/-! ## Supporting lemmas -/

/-- Membership in the deduplicated list: an element survives iff it is
in the list and not among the already-seen. -/
theorem mem_dedupAux [DecidableEq α] (a : α) (l : List α) :
    ∀ seen, a ∈ dedupAux seen l ↔ a ∈ l ∧ a ∉ seen := by
  induction l with
  | nil => intro seen; simp [dedupAux]
  | cons x l ih =>
    intro seen
    by_cases hx : x ∈ seen
    · simp only [dedupAux, if_pos hx, ih, List.mem_cons]
      constructor
      · rintro ⟨h1, h2⟩; exact ⟨Or.inr h1, h2⟩
      · rintro ⟨h1 | h1, h2⟩
        · exact absurd hx (h1 ▸ h2)
        · exact ⟨h1, h2⟩
    · simp only [dedupAux, if_neg hx, List.mem_cons, ih]
      constructor
      · rintro (rfl | ⟨h1, h2⟩)
        · exact ⟨Or.inl rfl, hx⟩
        · exact ⟨Or.inr h1, fun hs => h2 (Or.inr hs)⟩
      · rintro ⟨rfl | h1, h2⟩
        · exact Or.inl rfl
        · by_cases hax : a = x
          · exact Or.inl hax
          · exact Or.inr ⟨h1, fun hs => by
              rcases hs with h | h
              · exact hax h
              · exact h2 h⟩

/-- Membership is preserved by first-occurrence deduplication. -/
theorem mem_dedupKeepFirst [DecidableEq α] (a : α) (l : List α) :
    a ∈ dedupKeepFirst l ↔ a ∈ l := by
  simp [dedupKeepFirst, mem_dedupAux]

/-- First-occurrence deduplication yields a duplicate-free list. -/
theorem nodup_dedupAux [DecidableEq α] (l : List α) :
    ∀ seen, (dedupAux seen l).Nodup := by
  induction l with
  | nil => intro seen; simp [dedupAux]
  | cons x l ih =>
    intro seen
    by_cases hx : x ∈ seen
    · simpa [dedupAux, if_pos hx] using ih seen
    · simp only [dedupAux, if_neg hx]
      refine List.nodup_cons.mpr ⟨?_, ih (x :: seen)⟩
      intro hmem
      exact ((mem_dedupAux x l (x :: seen)).mp hmem).2 (List.mem_cons_self x seen)

/-- `dedupKeepFirst` yields a duplicate-free list. -/
theorem nodup_dedupKeepFirst [DecidableEq α] (l : List α) :
    (dedupKeepFirst l).Nodup := nodup_dedupAux l []

/-- The deduplicated list presents the same finite set. -/
theorem toFinset_dedupKeepFirst [DecidableEq α] (l : List α) :
    (dedupKeepFirst l).toFinset = l.toFinset := by
  ext a; simp [List.mem_toFinset, mem_dedupKeepFirst]

/-- The size of a JavaScript `Set` built from a list is the cardinality
of the underlying finite set. -/
theorem length_dedupKeepFirst [DecidableEq α] (l : List α) :
    (dedupKeepFirst l).length = l.toFinset.card := by
  rw [← toFinset_dedupKeepFirst, List.toFinset_card_of_nodup (nodup_dedupKeepFirst l)]

/-- The list-level Jaccard computation of the code equals the
specification's |A ∩ B| / |A ∪ B| on the corresponding finite sets
(both-empty input included, since `ℚ` gives 0/0 = 0). -/
theorem jaccardSimilarity_eq_finset (a b : List String) :
    jaccardSimilarity a b = jaccardFinset a.toFinset b.toFinset := by
  have hnum : (dedupKeepFirst (a.filter (fun x => b.contains x))).length =
      (a.toFinset ∩ b.toFinset).card := by
    rw [length_dedupKeepFirst]
    congr 1
    ext x
    simp [List.mem_toFinset, List.mem_filter, Finset.mem_inter, List.elem_iff]
  have hden : (dedupKeepFirst (a ++ b)).length = (a.toFinset ∪ b.toFinset).card := by
    rw [length_dedupKeepFirst]
    congr 1
    ext x
    simp [List.mem_toFinset, Finset.mem_union]
  unfold jaccardSimilarity jaccardFinset
  by_cases h : a.length = 0 ∧ b.length = 0
  · obtain ⟨ha, hb⟩ := h
    rw [List.length_eq_zero] at ha hb
    subst ha; subst hb
    simp
  · rw [if_neg h, hnum, hden]

/-- The Jaccard coefficient is non-negative. -/
theorem jaccardFinset_nonneg (A B : Finset String) : 0 ≤ jaccardFinset A B := by
  unfold jaccardFinset
  positivity

/-- The Jaccard coefficient is at most one. -/
theorem jaccardFinset_le_one (A B : Finset String) : jaccardFinset A B ≤ 1 := by
  unfold jaccardFinset
  apply div_le_one_of_le₀
  · exact_mod_cast Finset.card_le_card Finset.inter_subset_union
  · positivity

/-- A positive Jaccard value forces a non-empty intersection. -/
theorem jaccard_pos_inter (a b : List String) (h : 0 < jaccardSimilarity a b) :
    (a.toFinset ∩ b.toFinset).Nonempty := by
  rw [jaccardSimilarity_eq_finset, jaccardFinset] at h
  rw [← Finset.card_pos]
  by_contra hc
  push_neg at hc
  interval_cases hcard : (a.toFinset ∩ b.toFinset).card
  simp [hcard] at h

/-- Membership across descending insertion. -/
theorem mem_insDescBy {α : Type} (k : α → ℚ) (x a : α) (l : List α) :
    a ∈ insDescBy k x l ↔ a = x ∨ a ∈ l := by
  induction l with
  | nil => simp [insDescBy]
  | cons y l ih =>
    by_cases h : k y ≤ k x
    · simp [insDescBy, if_pos h]
    · simp only [insDescBy, if_neg h, List.mem_cons, ih]
      tauto

/-- Membership across descending sort. -/
theorem mem_sortDescBy {α : Type} (k : α → ℚ) (a : α) (l : List α) :
    a ∈ sortDescBy k l ↔ a ∈ l := by
  induction l with
  | nil => simp [sortDescBy]
  | cons x l ih => simp [sortDescBy, mem_insDescBy, ih]

/-- Descending insertion preserves descending sortedness. -/
theorem pairwise_insDescBy {α : Type} (k : α → ℚ) (x : α) (l : List α)
    (h : l.Pairwise (fun a b => k b ≤ k a)) :
    (insDescBy k x l).Pairwise (fun a b => k b ≤ k a) := by
  induction l with
  | nil => simp [insDescBy]
  | cons y l ih =>
    rcases List.pairwise_cons.mp h with ⟨hy, hl⟩
    by_cases hxy : k y ≤ k x
    · rw [insDescBy, if_pos hxy]
      refine List.pairwise_cons.mpr ⟨?_, h⟩
      intro b hb
      rcases List.mem_cons.mp hb with rfl | hb
      · exact hxy
      · exact le_trans (hy b hb) hxy
    · rw [insDescBy, if_neg hxy]
      refine List.pairwise_cons.mpr ⟨?_, ih hl⟩
      intro b hb
      rcases (mem_insDescBy k x b l).mp hb with rfl | hb
      · exact le_of_lt (lt_of_not_le hxy)
      · exact hy b hb

/-- The descending sort is sorted descending. -/
theorem pairwise_sortDescBy {α : Type} (k : α → ℚ) (l : List α) :
    (sortDescBy k l).Pairwise (fun a b => k b ≤ k a) := by
  induction l with
  | nil => simp [sortDescBy]
  | cons x l ih => exact pairwise_insDescBy k x _ ih

/-- Membership across ascending insertion. -/
theorem mem_insAscBy {α : Type} (k : α → ℚ) (x a : α) (l : List α) :
    a ∈ insAscBy k x l ↔ a = x ∨ a ∈ l := by
  induction l with
  | nil => simp [insAscBy]
  | cons y l ih =>
    by_cases h : k x ≤ k y
    · simp [insAscBy, if_pos h]
    · simp only [insAscBy, if_neg h, List.mem_cons, ih]
      tauto

/-- Membership across ascending sort. -/
theorem mem_sortAscBy {α : Type} (k : α → ℚ) (a : α) (l : List α) :
    a ∈ sortAscBy k l ↔ a ∈ l := by
  induction l with
  | nil => simp [sortAscBy]
  | cons x l ih => simp [sortAscBy, mem_insAscBy, ih]

/-- Ascending insertion preserves ascending sortedness. -/
theorem pairwise_insAscBy {α : Type} (k : α → ℚ) (x : α) (l : List α)
    (h : l.Pairwise (fun a b => k a ≤ k b)) :
    (insAscBy k x l).Pairwise (fun a b => k a ≤ k b) := by
  induction l with
  | nil => simp [insAscBy]
  | cons y l ih =>
    rcases List.pairwise_cons.mp h with ⟨hy, hl⟩
    by_cases hxy : k x ≤ k y
    · rw [insAscBy, if_pos hxy]
      refine List.pairwise_cons.mpr ⟨?_, h⟩
      intro b hb
      rcases List.mem_cons.mp hb with rfl | hb
      · exact hxy
      · exact le_trans hxy (hy b hb)
    · rw [insAscBy, if_neg hxy]
      refine List.pairwise_cons.mpr ⟨?_, ih hl⟩
      intro b hb
      rcases (mem_insAscBy k x b l).mp hb with rfl | hb
      · exact le_of_lt (lt_of_not_le hxy)
      · exact hy b hb

/-- The ascending sort is sorted ascending. -/
theorem pairwise_sortAscBy {α : Type} (k : α → ℚ) (l : List α) :
    (sortAscBy k l).Pairwise (fun a b => k a ≤ k b) := by
  induction l with
  | nil => simp [sortAscBy]
  | cons x l ih => exact pairwise_insAscBy k x _ ih

/-- Rounding to three decimals keeps values of [0, 1] inside [0, 1]. -/
theorem round3_mem_unit (q : ℚ) (h0 : 0 ≤ q) (h1 : q ≤ 1) :
    0 ≤ round3 q ∧ round3 q ≤ 1 := by
  unfold round3
  have hlo : (0 : ℤ) ≤ round (q * 1000) := by
    rw [round_eq]
    have : (0 : ℤ) ≤ ⌊(1 : ℚ) / 2⌋ := by norm_num
    calc (0 : ℤ) ≤ ⌊(1 : ℚ) / 2⌋ := this
      _ ≤ ⌊q * 1000 + 1 / 2⌋ := by
          apply Int.floor_le_floor
          nlinarith
  have hhi : round (q * 1000) ≤ 1000 := by
    rw [round_eq]
    calc ⌊q * 1000 + 1 / 2⌋ ≤ ⌊(1000 : ℚ) + 1 / 2⌋ := by
          apply Int.floor_le_floor
          nlinarith
      _ ≤ 1000 := by
          have hf : ⌊(1000 : ℚ) + 1 / 2⌋ < 1001 := by
            rw [Int.floor_lt]
            norm_num
          omega
  constructor
  · positivity
  · rw [div_le_one (by norm_num : (0:ℚ) < 1000)]
    exact_mod_cast hhi

/-- Claim C4 (confirmed): with at least one bound given,
`searchDrugsByHalfLife` returns only records with a non-null normalized
half-life lying within the given inclusive bound(s) (either bound may be
omitted), in ascending half-life order, truncated to `limit`. -/
theorem c4_search_by_half_life (db : DrugDB) (minH maxH : Option ℚ) (limit : ℕ)
    (_hgiven : minH.isSome ∨ maxH.isSome) :
    (searchDrugsByHalfLife db minH maxH limit).length ≤ limit ∧
    (∀ d ∈ searchDrugsByHalfLife db minH maxH limit,
      ∃ v, d.half_life_hours = some v ∧
        (∀ m, minH = some m → m ≤ v) ∧ (∀ M, maxH = some M → v ≤ M)) ∧
    (searchDrugsByHalfLife db minH maxH limit).Pairwise
      (fun a b => hlKey a ≤ hlKey b) := by
  clear _hgiven
  have keyfacts : ∀ (p : DrugRow → Bool) (l : List DrugRow),
      ((sortAscBy hlKey (l.filter p)).take limit).length ≤ limit ∧
      (∀ d ∈ (sortAscBy hlKey (l.filter p)).take limit, p d = true) ∧
      ((sortAscBy hlKey (l.filter p)).take limit).Pairwise
        (fun a b => hlKey a ≤ hlKey b) := by
    intro p l
    refine ⟨?_, ?_, ?_⟩
    · calc ((sortAscBy hlKey (l.filter p)).take limit).length
          = min limit (sortAscBy hlKey (l.filter p)).length := List.length_take _ _
        _ ≤ limit := Nat.min_le_left _ _
    · intro d hd
      have hd1 : d ∈ sortAscBy hlKey (l.filter p) := List.mem_of_mem_take hd
      have hd2 : d ∈ l.filter p := (mem_sortAscBy hlKey d _).mp hd1
      exact (List.mem_filter.mp hd2).2
    · exact (pairwise_sortAscBy hlKey _).sublist (List.take_sublist _ _)
  match minH, maxH with
  | some m, some M =>
    obtain ⟨h1, h2, h3⟩ := keyfacts
      (fun d => match d.half_life_hours with
        | some v => decide (m ≤ v) && decide (v ≤ M)
        | none => false) db.drugs
    refine ⟨h1, ?_, h3⟩
    intro d hd
    have := h2 d hd
    match hv : d.half_life_hours with
    | some v =>
      rw [hv] at this
      simp only [Bool.and_eq_true, decide_eq_true_eq] at this
      refine ⟨v, rfl, ?_, ?_⟩
      · intro m' hm'
        cases hm'
        exact this.1
      · intro M' hM'
        cases hM'
        exact this.2
    | none => rw [hv] at this; simp at this
  | some m, none =>
    obtain ⟨h1, h2, h3⟩ := keyfacts
      (fun d => match d.half_life_hours with
        | some v => decide (m ≤ v)
        | none => false) db.drugs
    refine ⟨h1, ?_, h3⟩
    intro d hd
    have := h2 d hd
    match hv : d.half_life_hours with
    | some v =>
      rw [hv] at this
      simp only [decide_eq_true_eq] at this
      refine ⟨v, rfl, ?_, ?_⟩
      · intro m' hm'
        cases hm'
        exact this
      · intro M' hM'
        simp at hM'
    | none => rw [hv] at this; simp at this
  | none, some M =>
    obtain ⟨h1, h2, h3⟩ := keyfacts
      (fun d => match d.half_life_hours with
        | some v => decide (v ≤ M)
        | none => false) db.drugs
    refine ⟨h1, ?_, h3⟩
    intro d hd
    have := h2 d hd
    match hv : d.half_life_hours with
    | some v =>
      rw [hv] at this
      simp only [decide_eq_true_eq] at this
      refine ⟨v, rfl, ?_, ?_⟩
      · intro m' hm'
        simp at hm'
      · intro M' hM'
        cases hM'
        exact this
    | none => rw [hv] at this; simp at this
  | none, none =>
    obtain ⟨h1, h2, h3⟩ := keyfacts (fun d => d.half_life_hours.isSome) db.drugs
    refine ⟨h1, ?_, h3⟩
    intro d hd
    have := h2 d hd
    match hv : d.half_life_hours with
    | some v =>
      refine ⟨v, rfl, ?_, ?_⟩
      · intro m' hm'
        simp at hm'
      · intro M' hM'
        simp at hM'
    | none => rw [hv] at this; simp at this

/-- A three-record store used to exercise the half-life range search. -/
def dbHalfLife : DrugDB :=
  { drugs := [
      { drugbank_id := "DB0001", name := some "Alpha", half_life := some "5 hours",
        half_life_hours := some 5, targets := [], categories := [], atc_codes := [] },
      { drugbank_id := "DB0002", name := some "Beta", half_life := none,
        half_life_hours := none, targets := [], categories := [], atc_codes := [] },
      { drugbank_id := "DB0003", name := some "Gamma", half_life := some "12 hours",
        half_life_hours := some 12, targets := [], categories := [], atc_codes := [] }],
    drug_targets := [], drug_categories := [], drug_carriers := [], drug_transporters := [] }

/-- Witness for C4: the bound combination min = 4, max = 8 on a concrete
store satisfies the hypothesis and the guaranteed properties. -/
theorem c4_search_by_half_life_witness :
    ((some (4 : ℚ)).isSome ∨ (some (8 : ℚ)).isSome) ∧
    ((searchDrugsByHalfLife dbHalfLife (some 4) (some 8) 20).length ≤ 20 ∧
     (∀ d ∈ searchDrugsByHalfLife dbHalfLife (some 4) (some 8) 20,
       ∃ v, d.half_life_hours = some v ∧
         (∀ m, (some (4 : ℚ)) = some m → m ≤ v) ∧
         (∀ M, (some (8 : ℚ)) = some M → v ≤ M)) ∧
     (searchDrugsByHalfLife dbHalfLife (some 4) (some 8) 20).Pairwise
       (fun a b => hlKey a ≤ hlKey b)) :=
  ⟨Or.inl rfl, c4_search_by_half_life dbHalfLife (some 4) (some 8) 20 (Or.inl rfl)⟩

/-- A row found by primary key carries that key. -/
theorem getDrugById_some_id (db : DrugDB) (cid : String) (d : DrugRow)
    (h : getDrugById db cid = some d) : d.drugbank_id = cid := by
  unfold getDrugById at h
  have := List.find?_some h
  simpa using this

/-- Both candidate queries exclude the reference identifier. -/
theorem candidate_ne_ref (db : DrugDB) (refT refC : List String) (id cid : String)
    (h : cid ∈ dedupKeepFirst (targetCandidates db refT id ++ categoryCandidates db refC id)) :
    cid ≠ id := by
  rw [mem_dedupKeepFirst] at h
  rcases List.mem_append.mp h with h | h
  · unfold targetCandidates at h
    split_ifs at h with h0
    · simp at h
    · rw [mem_dedupKeepFirst, List.mem_map] at h
      obtain ⟨r, hr, rfl⟩ := h
      have := (List.mem_filter.mp hr).2
      simp only [Bool.and_eq_true, bne_iff_ne, ne_eq] at this
      exact this.2
  · unfold categoryCandidates at h
    split_ifs at h with h0
    · simp at h
    · rw [mem_dedupKeepFirst, List.mem_map] at h
      obtain ⟨r, hr, rfl⟩ := h
      have := (List.mem_filter.mp hr).2
      simp only [Bool.and_eq_true, bne_iff_ne, ne_eq] at this
      exact this.2

/-- Inversion of the candidate-scoring step: a produced entry records the
candidate row, a positive composite, and the rounded scores. -/
theorem scoreCandidate_inv (refT refC refA : List String) (cand : DrugRow) (e : ScoredDrug)
    (h : scoreCandidate refT refC refA cand = some e) :
    e.drug = cand ∧
    0 < compositeScore (jaccardSimilarity refT (targetNameSet cand))
      (jaccardSimilarity refC (categorySet cand))
      (jaccardSimilarity refA (atcCodeSet cand)) ∧
    e.similarity_score = round3 (compositeScore
      (jaccardSimilarity refT (targetNameSet cand))
      (jaccardSimilarity refC (categorySet cand))
      (jaccardSimilarity refA (atcCodeSet cand))) ∧
    e.target_similarity = round3 (jaccardSimilarity refT (targetNameSet cand)) ∧
    e.category_similarity = round3 (jaccardSimilarity refC (categorySet cand)) ∧
    e.atc_similarity = round3 (jaccardSimilarity refA (atcCodeSet cand)) := by
  simp only [scoreCandidate] at h
  split_ifs at h with hpos
  · rw [Option.some_inj] at h
    subst h
    exact ⟨rfl, hpos, rfl, rfl, rfl, rfl⟩

/-- Membership characterization for `findSimilarDrugs`: every returned
entry comes from one of the first 500 discovered candidate identifiers,
resolved through `getDrugById` and scored by `scoreCandidate`. -/
theorem mem_findSimilarDrugs (db : DrugDB) (id : String) (limit : ℕ) (e : ScoredDrug)
    (he : e ∈ findSimilarDrugs db id limit) :
    ∃ refDrug, getDrugById db id = some refDrug ∧
      ∃ cid ∈ (dedupKeepFirst (targetCandidates db (targetNameSet refDrug) id ++
          categoryCandidates db (categorySet refDrug) id)).take 500,
        getDrugById db cid = some e.drug ∧
        scoreCandidate (targetNameSet refDrug) (categorySet refDrug)
          (atcCodeSet refDrug) e.drug = some e := by
  unfold findSimilarDrugs at he
  match href : getDrugById db id with
  | none => rw [href] at he; simp at he
  | some refDrug =>
    rw [href] at he
    refine ⟨refDrug, rfl, ?_⟩
    simp only [findSimilarRef] at he
    split_ifs at he with h1 h2
    · simp at he
    · simp at he
    · have he1 := List.mem_of_mem_take he
      rw [mem_sortDescBy, List.mem_filterMap] at he1
      obtain ⟨cid, hcid, hf⟩ := he1
      match hg : getDrugById db cid with
      | none => rw [hg] at hf; simp at hf
      | some cand =>
        rw [hg] at hf
        simp only [Option.some_bind] at hf
        have hd : e.drug = cand := (scoreCandidate_inv _ _ _ _ _ hf).1
        refine ⟨cid, hcid, ?_, ?_⟩
        · rw [hd]; exact hg
        · rw [hd]; exact hf

/-- The result list is truncated to `limit` and sorted descending by the
reported composite score. -/
theorem findSimilarDrugs_len_sorted (db : DrugDB) (id : String) (limit : ℕ) :
    (findSimilarDrugs db id limit).length ≤ limit ∧
    (findSimilarDrugs db id limit).Pairwise
      (fun a b => b.similarity_score ≤ a.similarity_score) := by
  unfold findSimilarDrugs
  match href : getDrugById db id with
  | none => simp
  | some refDrug =>
    simp only [findSimilarRef]
    split_ifs with h1 h2
    · simp
    · simp
    · refine ⟨?_, ?_⟩
      · rw [List.length_take]
        exact Nat.min_le_left _ _
      · exact (pairwise_sortDescBy (fun s : ScoredDrug => s.similarity_score) _).sublist
          (List.take_sublist _ _)

/-- The code's list-level Jaccard value lies in [0, 1]. -/
theorem jaccardSimilarity_mem_unit (a b : List String) :
    0 ≤ jaccardSimilarity a b ∧ jaccardSimilarity a b ≤ 1 := by
  rw [jaccardSimilarity_eq_finset]
  exact ⟨jaccardFinset_nonneg _ _, jaccardFinset_le_one _ _⟩

/-- The weighted composite of three values of [0, 1] lies in [0, 1]. -/
theorem compositeScore_mem_unit (t c a : ℚ)
    (ht : 0 ≤ t ∧ t ≤ 1) (hc : 0 ≤ c ∧ c ≤ 1) (ha : 0 ≤ a ∧ a ≤ 1) :
    0 ≤ compositeScore t c a ∧ compositeScore t c a ≤ 1 := by
  unfold compositeScore
  constructor
  · nlinarith [ht.1, hc.1, ha.1]
  · nlinarith [ht.2, hc.2, ha.2]

/-- A positive composite forces one of the three summands positive. -/
theorem compositeScore_pos_elim (t c a : ℚ)
    (h : 0 < compositeScore t c a) : 0 < t ∨ 0 < c ∨ 0 < a := by
  by_contra hcon
  push_neg at hcon
  obtain ⟨h1, h2, h3⟩ := hcon
  unfold compositeScore at h
  nlinarith

/-- Claim C2 (confirmed): every result of `findSimilarDrugs` arises from
one of the first 500 discovered candidates; its three reported
per-dimension scores are the 3-decimal roundings of the Jaccard
coefficients |A ∩ B| / |A ∪ B| of the reference and candidate target,
category and code-prefix sets; its composite is the rounding of the
0.5/0.3/0.2-weighted sum, which is nonzero (zero-score candidates are
discarded); the list is sorted descending by the reported composite and
truncated to `limit`. -/
theorem c2_similarity_pipeline (db : DrugDB) (id : String) (limit : ℕ) :
    (findSimilarDrugs db id limit).length ≤ limit ∧
    (findSimilarDrugs db id limit).Pairwise
      (fun a b => b.similarity_score ≤ a.similarity_score) ∧
    ∀ e ∈ findSimilarDrugs db id limit, ∃ refDrug,
      getDrugById db id = some refDrug ∧
      (∃ cid ∈ (dedupKeepFirst (targetCandidates db (targetNameSet refDrug) id ++
          categoryCandidates db (categorySet refDrug) id)).take 500,
        getDrugById db cid = some e.drug) ∧
      e.target_similarity = round3 (jaccardFinset
        (targetNameSet refDrug).toFinset (targetNameSet e.drug).toFinset) ∧
      e.category_similarity = round3 (jaccardFinset
        (categorySet refDrug).toFinset (categorySet e.drug).toFinset) ∧
      e.atc_similarity = round3 (jaccardFinset
        (atcCodeSet refDrug).toFinset (atcCodeSet e.drug).toFinset) ∧
      e.similarity_score = round3 (compositeScore
        (jaccardFinset (targetNameSet refDrug).toFinset (targetNameSet e.drug).toFinset)
        (jaccardFinset (categorySet refDrug).toFinset (categorySet e.drug).toFinset)
        (jaccardFinset (atcCodeSet refDrug).toFinset (atcCodeSet e.drug).toFinset)) ∧
      compositeScore
        (jaccardFinset (targetNameSet refDrug).toFinset (targetNameSet e.drug).toFinset)
        (jaccardFinset (categorySet refDrug).toFinset (categorySet e.drug).toFinset)
        (jaccardFinset (atcCodeSet refDrug).toFinset (atcCodeSet e.drug).toFinset) ≠ 0 := by
  obtain ⟨hlen, hsorted⟩ := findSimilarDrugs_len_sorted db id limit
  refine ⟨hlen, hsorted, ?_⟩
  intro e he
  obtain ⟨refDrug, href, cid, hcid, hg, hscore⟩ := mem_findSimilarDrugs db id limit e he
  obtain ⟨hdrug, hpos, hs, ht, hc, ha⟩ := scoreCandidate_inv _ _ _ _ _ hscore
  refine ⟨refDrug, href, ⟨cid, hcid, hg⟩, ?_, ?_, ?_, ?_, ?_⟩
  · rw [ht, jaccardSimilarity_eq_finset]
  · rw [hc, jaccardSimilarity_eq_finset]
  · rw [ha, jaccardSimilarity_eq_finset]
  · rw [hs, jaccardSimilarity_eq_finset, jaccardSimilarity_eq_finset,
      jaccardSimilarity_eq_finset]
  · rw [← jaccardSimilarity_eq_finset, ← jaccardSimilarity_eq_finset,
      ← jaccardSimilarity_eq_finset]
    exact ne_of_gt hpos

/-- Claim C3 (confirmed): results of `findSimilarDrugs` never contain
the reference record, every reported composite score lies in [0, 1], no
returned candidate shares zero targets, zero categories and zero code
prefixes with the reference simultaneously, and a reference record whose
target, category and classification-code collections are all empty
yields the empty result. -/
theorem c3_similarity_invariants (db : DrugDB) (id : String) (limit : ℕ) :
    (∀ e ∈ findSimilarDrugs db id limit, e.drug.drugbank_id ≠ id) ∧
    (∀ e ∈ findSimilarDrugs db id limit,
      0 ≤ e.similarity_score ∧ e.similarity_score ≤ 1) ∧
    (∀ e ∈ findSimilarDrugs db id limit, ∃ refDrug,
      getDrugById db id = some refDrug ∧
      ¬((targetNameSet refDrug).toFinset ∩ (targetNameSet e.drug).toFinset = ∅ ∧
        (categorySet refDrug).toFinset ∩ (categorySet e.drug).toFinset = ∅ ∧
        (atcCodeSet refDrug).toFinset ∩ (atcCodeSet e.drug).toFinset = ∅)) ∧
    (∀ d, getDrugById db id = some d → d.targets = [] → d.categories = [] →
      d.atc_codes = [] → findSimilarDrugs db id limit = []) := by
  refine ⟨?_, ?_, ?_, ?_⟩
  · intro e he
    obtain ⟨refDrug, href, cid, hcid, hg, hscore⟩ := mem_findSimilarDrugs db id limit e he
    have h1 : e.drug.drugbank_id = cid := getDrugById_some_id db cid e.drug hg
    have h2 : cid ≠ id :=
      candidate_ne_ref db (targetNameSet refDrug) (categorySet refDrug) id cid
        (List.mem_of_mem_take hcid)
    rw [h1]; exact h2
  · intro e he
    obtain ⟨refDrug, href, cid, hcid, hg, hscore⟩ := mem_findSimilarDrugs db id limit e he
    obtain ⟨hdrug, hpos, hs, ht, hc, ha⟩ := scoreCandidate_inv _ _ _ _ _ hscore
    rw [hs]
    exact round3_mem_unit _
      (compositeScore_mem_unit _ _ _ (jaccardSimilarity_mem_unit _ _)
        (jaccardSimilarity_mem_unit _ _) (jaccardSimilarity_mem_unit _ _)).1
      (compositeScore_mem_unit _ _ _ (jaccardSimilarity_mem_unit _ _)
        (jaccardSimilarity_mem_unit _ _) (jaccardSimilarity_mem_unit _ _)).2
  · intro e he
    obtain ⟨refDrug, href, cid, hcid, hg, hscore⟩ := mem_findSimilarDrugs db id limit e he
    obtain ⟨hdrug, hpos, hs, ht, hc, ha⟩ := scoreCandidate_inv _ _ _ _ _ hscore
    refine ⟨refDrug, href, ?_⟩
    rintro ⟨hT, hC, hA⟩
    rcases compositeScore_pos_elim _ _ _ hpos with hj | hj | hj
    · have := jaccard_pos_inter _ _ hj
      rw [hT] at this
      exact Finset.not_nonempty_empty this
    · have := jaccard_pos_inter _ _ hj
      rw [hC] at this
      exact Finset.not_nonempty_empty this
    · have := jaccard_pos_inter _ _ hj
      rw [hA] at this
      exact Finset.not_nonempty_empty this
  · intro d h htg hcat hatc
    unfold findSimilarDrugs
    rw [h]
    simp only [findSimilarRef]
    rw [if_pos]
    refine ⟨?_, ?_, ?_⟩
    · simp [targetNameSet, htg, dedupKeepFirst, dedupAux]
    · simp [categorySet, hcat, dedupKeepFirst, dedupAux]
    · simp [atcCodeSet, hatc, dedupKeepFirst, dedupAux]

/-! ## Substring characterization of the entity searches -/

/-- A query without the SQL `LIKE` metacharacters `%` and `_`. -/
def noWild (q : List Char) : Prop := ∀ c ∈ q, c ≠ '%' ∧ c ≠ '_'

instance (q : List Char) : Decidable (noWild q) :=
  inferInstanceAs (Decidable (∀ c ∈ q, c ≠ '%' ∧ c ≠ '_'))

/-- Literal prefix test. -/
def leadsWith : List Char → List Char → Bool
  | [], _ => true
  | _ :: _, [] => false
  | p :: ps, t :: ts => p = t && leadsWith ps ts

/-- Contiguous-substring occurrence test. -/
def occursIn (q : List Char) : List Char → Bool
  | [] => leadsWith q []
  | t :: ts => leadsWith q (t :: ts) || occursIn q ts

/-- The specification's "case-insensitive substring match". -/
def substrCI (q t : List Char) : Bool :=
  occursIn (q.map lowerChar) (t.map lowerChar)

/-- A trailing lone `%` matches any remaining text (given enough fuel). -/
theorem likeMatchF_pct_nil : ∀ (t : List Char) (f : ℕ), t.length + 1 < f →
    likeMatchF f ['%'] t = true := by
  intro t
  induction t with
  | nil =>
    intro f hf
    obtain ⟨f', rfl⟩ : ∃ f'', f = f'' + 1 := ⟨f - 1, by omega⟩
    obtain ⟨f'', rfl⟩ : ∃ g, f' = g + 1 := ⟨f' - 1, by omega⟩
    rfl
  | cons d ts ih =>
    intro f hf
    obtain ⟨f', rfl⟩ : ∃ f'', f = f'' + 1 := ⟨f - 1, by omega⟩
    have h2 : likeMatchF f' ['%'] ts = true := ih f' (by simp at hf; omega)
    simp [likeMatchF, h2]

/-- A wildcard-free pattern followed by `%` matches exactly the texts it
is a case-insensitive prefix of. -/
theorem likeMatchF_literal : ∀ (q : List Char), noWild q →
    ∀ (t : List Char) (f : ℕ), q.length + t.length + 1 < f →
    likeMatchF f (q ++ ['%']) t = leadsWith (q.map lowerChar) (t.map lowerChar) := by
  intro q
  induction q with
  | nil =>
    intro _ t f hf
    simp only [List.nil_append, List.map_nil]
    rw [likeMatchF_pct_nil t f (by simp at hf; omega)]
    rfl
  | cons c q' ih =>
    intro hq t f hf
    have hc := hq c (List.mem_cons_self c q')
    obtain ⟨f', rfl⟩ : ∃ f'', f = f'' + 1 := ⟨f - 1, by omega⟩
    show (if c = '%' then _ else _) = _
    rw [if_neg hc.1]
    match t with
    | [] => rfl
    | d :: ts =>
      have hrec := ih (fun x hx => hq x (List.mem_cons_of_mem c hx)) ts f'
        (by simp at hf ⊢; omega)
      show ((if c = '_' then true else lowerChar c = lowerChar d) &&
        likeMatchF f' (q' ++ ['%']) ts) = _
      rw [if_neg hc.2, hrec]
      rfl

/-- A `%`-wrapped wildcard-free pattern matches exactly the texts the
pattern occurs in as a case-insensitive substring. -/
theorem likeMatchF_pct : ∀ (q : List Char), noWild q →
    ∀ (t : List Char) (f : ℕ), q.length + t.length + 2 < f →
    likeMatchF f ('%' :: (q ++ ['%'])) t =
      occursIn (q.map lowerChar) (t.map lowerChar) := by
  intro q hq t
  induction t with
  | nil =>
    intro f hf
    obtain ⟨f', rfl⟩ : ∃ f'', f = f'' + 1 := ⟨f - 1, by omega⟩
    show (likeMatchF f' (q ++ ['%']) [] || _) = _
    rw [likeMatchF_literal q hq [] f' (by simp at hf ⊢; omega)]
    simp [occursIn]
  | cons d ts ih =>
    intro f hf
    obtain ⟨f', rfl⟩ : ∃ f'', f = f'' + 1 := ⟨f - 1, by omega⟩
    show (likeMatchF f' (q ++ ['%']) (d :: ts) ||
      likeMatchF f' ('%' :: (q ++ ['%'])) ts) = _
    rw [likeMatchF_literal q hq (d :: ts) f' (by simp at hf ⊢; omega),
      ih f' (by simp at hf ⊢; omega)]
    rfl

/-- The `'%' + q + '%'` pattern every search binds is, for wildcard-free
`q`, exactly the case-insensitive substring test. -/
theorem likeMatch_pat_substr (q t : List Char) (hq : noWild q) :
    likeMatch (likePat q) t = substrCI q t := by
  unfold likeMatch substrCI
  apply likeMatchF_pct q hq t
  simp [likePat]
  omega

/-- Common shape of all four entity searches: deduplicated, truncated,
and sound with respect to the underlying joined row list. -/
theorem dedup_take_shape {β : Type} [DecidableEq β] (L : List β) (limit : ℕ) :
    ((dedupKeepFirst L).take limit).Nodup ∧
    ((dedupKeepFirst L).take limit).length ≤ limit ∧
    ∀ x ∈ (dedupKeepFirst L).take limit, x ∈ L := by
  refine ⟨(List.take_sublist _ _).nodup (nodup_dedupKeepFirst L), ?_, ?_⟩
  · rw [List.length_take]
    exact Nat.min_le_left _ _
  · intro x hx
    exact (mem_dedupKeepFirst x L).mp (List.mem_of_mem_take hx)

/-- Claim C7 as amended: for wildcard-free queries, every entity search
matches by case-insensitive substring against its child table (with
hyphens additionally treated as spaces on both sides for target names)
and truncates to `limit`; target and category results are deduplicated
parent rows, while carrier and transporter results are deduplicated only
on the whole (parent row, matched entity columns) tuple, so the same
parent may appear once per distinct matching carrier/transporter row. -/
theorem c7_entity_search (db : DrugDB) (target category carrier transporter : String)
    (limit : ℕ)
    (h1 : noWild (normTarget target)) (h2 : noWild category.data)
    (h3 : noWild carrier.data) (h4 : noWild transporter.data) :
    ((searchDrugsByTarget db target limit).Nodup ∧
     (searchDrugsByTarget db target limit).length ≤ limit ∧
     ∀ d ∈ searchDrugsByTarget db target limit, ∃ r ∈ db.drug_targets,
       r.drug_id = d.drugbank_id ∧
       substrCI (normTarget target) (normTarget r.target_name) = true) ∧
    ((searchDrugsByCategory db category limit).Nodup ∧
     (searchDrugsByCategory db category limit).length ≤ limit ∧
     ∀ d ∈ searchDrugsByCategory db category limit, ∃ r ∈ db.drug_categories,
       r.drug_id = d.drugbank_id ∧ substrCI category.data r.category.data = true) ∧
    ((searchDrugsByCarrier db carrier limit).Nodup ∧
     (searchDrugsByCarrier db carrier limit).length ≤ limit ∧
     ∀ hres ∈ searchDrugsByCarrier db carrier limit, ∃ r ∈ db.drug_carriers,
       r.drug_id = hres.drug.drugbank_id ∧ r.carrier_name = hres.carrier_name ∧
       substrCI carrier.data r.carrier_name.data = true) ∧
    ((searchDrugsByTransporter db transporter limit).Nodup ∧
     (searchDrugsByTransporter db transporter limit).length ≤ limit ∧
     ∀ hres ∈ searchDrugsByTransporter db transporter limit,
       ∃ r ∈ db.drug_transporters,
         r.drug_id = hres.drug.drugbank_id ∧ r.transporter_name = hres.transporter_name ∧
         substrCI transporter.data r.transporter_name.data = true) := by
  refine ⟨?_, ?_, ?_, ?_⟩
  · obtain ⟨hn, hl, hm⟩ := dedup_take_shape
      ((db.drug_targets.filter
          (fun r => likeMatch (likePat (normTarget target)) (normTarget r.target_name))).flatMap
        (fun r => db.drugs.filter (fun d => d.drugbank_id == r.drug_id))) limit
    refine ⟨hn, hl, ?_⟩
    intro d hd
    obtain ⟨r, hr, hdr⟩ := List.mem_flatMap.mp (hm d hd)
    have h5 := List.mem_filter.mp hr
    have h6 := List.mem_filter.mp hdr
    refine ⟨r, h5.1, ?_, ?_⟩
    · exact (beq_iff_eq.mp h6.2).symm
    · rw [← likeMatch_pat_substr _ _ h1]
      exact h5.2
  · obtain ⟨hn, hl, hm⟩ := dedup_take_shape
      ((db.drug_categories.filter
          (fun r => likeMatch (likePat category.data) r.category.data)).flatMap
        (fun r => db.drugs.filter (fun d => d.drugbank_id == r.drug_id))) limit
    refine ⟨hn, hl, ?_⟩
    intro d hd
    obtain ⟨r, hr, hdr⟩ := List.mem_flatMap.mp (hm d hd)
    have h5 := List.mem_filter.mp hr
    have h6 := List.mem_filter.mp hdr
    refine ⟨r, h5.1, ?_, ?_⟩
    · exact (beq_iff_eq.mp h6.2).symm
    · rw [← likeMatch_pat_substr _ _ h2]
      exact h5.2
  · obtain ⟨hn, hl, hm⟩ := dedup_take_shape
      ((db.drug_carriers.filter
          (fun r => likeMatch (likePat carrier.data) r.carrier_name.data)).flatMap
        (fun r => (db.drugs.filter (fun d => d.drugbank_id == r.drug_id)).map
          (fun d => (⟨d, r.carrier_name, r.organism, r.known_action⟩ : CarrierHit)))) limit
    refine ⟨hn, hl, ?_⟩
    intro x hx
    obtain ⟨r, hr, hdr⟩ := List.mem_flatMap.mp (hm x hx)
    obtain ⟨d, hd, rfl⟩ := List.mem_map.mp hdr
    have h5 := List.mem_filter.mp hr
    have h6 := List.mem_filter.mp hd
    refine ⟨r, h5.1, ?_, rfl, ?_⟩
    · exact (beq_iff_eq.mp h6.2).symm
    · rw [← likeMatch_pat_substr _ _ h3]
      exact h5.2
  · obtain ⟨hn, hl, hm⟩ := dedup_take_shape
      ((db.drug_transporters.filter
          (fun r => likeMatch (likePat transporter.data) r.transporter_name.data)).flatMap
        (fun r => (db.drugs.filter (fun d => d.drugbank_id == r.drug_id)).map
          (fun d => (⟨d, r.transporter_name, r.organism, r.known_action⟩ : TransporterHit)))) limit
    refine ⟨hn, hl, ?_⟩
    intro x hx
    obtain ⟨r, hr, hdr⟩ := List.mem_flatMap.mp (hm x hx)
    obtain ⟨d, hd, rfl⟩ := List.mem_map.mp hdr
    have h5 := List.mem_filter.mp hr
    have h6 := List.mem_filter.mp hd
    refine ⟨r, h5.1, ?_, rfl, ?_⟩
    · exact (beq_iff_eq.mp h6.2).symm
    · rw [← likeMatch_pat_substr _ _ h4]
      exact h5.2

/-- A store whose single drug is found through its target name. -/
def rowGlu : DrugRow :=
  { drugbank_id := "DB01", name := some "Semaglutide", half_life := none,
    half_life_hours := none, targets := [], categories := [], atc_codes := [] }

/-- Store with the hyphen-free stored target name of the spec's
example. -/
def dbGlu : DrugDB :=
  { drugs := [rowGlu],
    drug_targets := [
      { drug_id := "DB01", target_name := "Glucagon like peptide 1 receptor",
        organism := some "Humans" }],
    drug_categories := [], drug_carriers := [], drug_transporters := [] }

/-- A store whose single drug carries two distinct matching carriers. -/
def dbCar : DrugDB :=
  { drugs := [
      { drugbank_id := "DB02", name := some "Onda", half_life := none,
        half_life_hours := none, targets := [], categories := [], atc_codes := [] }],
    drug_targets := [], drug_categories := [],
    drug_carriers := [
      { drug_id := "DB02", carrier_id := some "C1",
        carrier_name := "Serum protein A", organism := none, known_action := none },
      { drug_id := "DB02", carrier_id := some "C2",
        carrier_name := "Serum protein B", organism := none, known_action := none }],
    drug_transporters := [] }

/-- Claim C7, counterexample: the carrier search `SELECT`s the carrier
columns next to `drugs.*`, so `DISTINCT` ranges over the joined tuple
and the same parent record is returned once per matching carrier — here
the parent "DB02" appears twice for the query "protein", refuting "no
parent record appears twice" for every entity kind. -/
theorem c7_counterexample :
    (searchDrugsByCarrier dbCar "protein" 10).map (fun h => h.drug.drugbank_id) =
      ["DB02", "DB02"] := by decide

/-- Witness for C7: on a concrete store, the hyphenated query of the
specification's example ("glucagon-like peptide 1 receptor", wildcard
free) finds the record stored under "Glucagon like peptide 1 receptor",
and the theorem's target-search guarantees apply to it. -/
theorem c7_entity_search_witness :
    searchDrugsByTarget dbGlu "glucagon-like peptide 1 receptor" 20 = [rowGlu] ∧
    (∀ d ∈ searchDrugsByTarget dbGlu "glucagon-like peptide 1 receptor" 20,
      ∃ r ∈ dbGlu.drug_targets, r.drug_id = d.drugbank_id ∧
        substrCI (normTarget "glucagon-like peptide 1 receptor")
          (normTarget r.target_name) = true) :=
  ⟨by decide,
   (c7_entity_search dbGlu "glucagon-like peptide 1 receptor" "c" "c" "c" 20
      (by decide) (by decide) (by decide) (by decide)).1.2.2⟩

/-! ## Streaming ingestion pipeline

Model of the database builder's `endElement: drug` handler
(scripts/build-db.js): top-level-marker check, primary-identifier
extraction, `seenIds` deduplication, half-life normalization, and the
one-record transaction `insertOneDrug` against the schema's constraints
(`drugbank_id TEXT PRIMARY KEY`, `name TEXT NOT NULL`; child-table
columns are nullable and better-sqlite3 leaves foreign-key enforcement
off, so child inserts cannot fail here).  Collections appear at the
extractor's output level (the per-kind `extract*` shapes).  The `catch`
block of the handler references `drugbankId`, a `const` declared inside
the `try` block — out of scope in the `catch` of this strict-mode
module — so a thrown insert error becomes a `ReferenceError` that
escapes the handler and aborts the run; the model records this as a
crash flag. -/

/-- One entry of a record's `drugbank-id` field as xml-stream delivers
it: a bare string, or an element node with its `primary` attribute
(`$.primary`) and its text (`$text`).  An element's missing-text object
fallback (`$text || node`) produces a non-string value and is outside
this string-valued model. -/
inductive IdVal where
  | str (s : String)
  | node (primary : Option String) (text : String)
  deriving DecidableEq, Repr

/-- The predicate of `ids.find(...)`: a bare string is never flagged; a
node is flagged when its `primary` attribute holds "true". -/
def isPrimaryFlagged : IdVal → Bool
  | .str _ => false
  | .node p _ => p == some "true"

/-- The string value of an id entry. -/
def idValText : IdVal → String
  | .str s => s
  | .node _ t => t

/-- Model of `getPrimaryDrugBankId(drug)`: `none` for an absent (or
falsy) field; otherwise the first entry flagged primary, and failing
that the first entry.  (`xml.collect('drugbank-id')` makes the field an
array whenever present; an empty array would make the source read
`ids[0].$text` of `undefined` and throw into the skip path, which this
model renders as `none` directly.) -/
def getPrimaryDrugBankId (ids : Option (List IdVal)) : Option String :=
  match ids with
  | none => none
  | some l =>
    match l.find? isPrimaryFlagged with
    | some e => some (idValText e)
    | none =>
      match l with
      | [] => none
      | e :: _ => some (idValText e)

/-- One salt of the extractor's `extractSalts` output. -/
structure SaltEntry where
  id : Option String
  name : Option String
  unii : Option String
  cas_number : Option String
  inchikey : Option String
  average_mass : Option ℚ
  deriving DecidableEq, Repr

/-- One decoded `drug` element as the handler receives it: the
top-level `type` marker attribute (`none` for a nested reference stub or
a falsy attribute), the `drugbank-id` entries, the scalar fields the
claims touch, and the extracted child collections
(carrier/transporter entries share the target-entry shape). -/
structure DrugEvt where
  typeAttr : Option String
  ids : Option (List IdVal)
  name : Option String
  half_life : Option String
  targets : List TargetEntry
  categories : List String
  carriers : List TargetEntry
  transporters : List TargetEntry
  salts : List SaltEntry
  deriving DecidableEq, Repr

/-- The flat `drugs` row of the builder (the columns the claims
touch). -/
structure FlatDrugRow where
  drugbank_id : String
  name : Option String
  half_life : Option String
  half_life_hours : Option ℚ
  deriving DecidableEq, Repr

/-- A row of the builder's `drug_salts` table. -/
structure SaltRow where
  drug_id : String
  salt_id : Option String
  salt_name : String
  unii : Option String
  cas_number : Option String
  inchikey : Option String
  average_mass : Option ℚ
  deriving DecidableEq, Repr

/-- The builder-side tables. -/
structure BuildTables where
  drugs : List FlatDrugRow
  drug_targets : List TargetRow
  drug_categories : List CategoryRow
  drug_carriers : List CarrierRow
  drug_transporters : List TransporterRow
  drug_salts : List SaltRow
  deriving DecidableEq, Repr

/-- The two `SqliteError`s the schema can raise inside
`insertOneDrug`. -/
inductive SqlErr where
  | notNullName
  | pkConflict
  deriving DecidableEq, Repr

/-- JS `value || null` on an optional string. -/
def jsOrNull (o : Option String) : Option String :=
  match o with
  | some "" => none
  | x => x

/-- `insertDrug.run(...)` under `drugbank_id TEXT PRIMARY KEY, name TEXT
NOT NULL`: a null name or a duplicate key raises; otherwise the row is
appended. -/
def insertDrugRow (t : BuildTables) (row : FlatDrugRow) : Except SqlErr BuildTables :=
  if row.name = none then .error .notNullName
  else if (t.drugs.map (fun r => r.drugbank_id)).contains row.drugbank_id then
    .error .pkConflict
  else .ok { t with drugs := t.drugs ++ [row] }

/-- The loop body of `for (const target of targets)` inside the
transaction: `if (target.name) insertTarget.run(...)`. -/
def insTargetStep (drugbankId : String) (acc : BuildTables) (tg : TargetEntry) : BuildTables :=
  match tg.name with
  | some n => if n = "" then acc
      else { acc with drug_targets :=
        acc.drug_targets ++ [⟨drugbankId, n, jsOrNull tg.organism⟩] }
  | none => acc

/-- The loop body of `for (const category of categories)`. -/
def insCategoryStep (drugbankId : String) (acc : BuildTables) (c : String) : BuildTables :=
  { acc with drug_categories := acc.drug_categories ++ [⟨drugbankId, c⟩] }

/-- The loop body of `for (const carrier of carriers)`. -/
def insCarrierStep (drugbankId : String) (acc : BuildTables) (cr : TargetEntry) : BuildTables :=
  match cr.name with
  | some n => if n = "" then acc
      else { acc with drug_carriers := acc.drug_carriers ++
        [⟨drugbankId, jsOrNull cr.id, n, jsOrNull cr.organism, jsOrNull cr.known_action⟩] }
  | none => acc

/-- The loop body of `for (const transporter of transporters)`. -/
def insTransporterStep (drugbankId : String) (acc : BuildTables) (tr : TargetEntry) : BuildTables :=
  match tr.name with
  | some n => if n = "" then acc
      else { acc with drug_transporters := acc.drug_transporters ++
        [⟨drugbankId, jsOrNull tr.id, n, jsOrNull tr.organism, jsOrNull tr.known_action⟩] }
  | none => acc

/-- The loop body of `for (const salt of salts)`. -/
def insSaltStep (drugbankId : String) (acc : BuildTables) (s : SaltEntry) : BuildTables :=
  match s.name with
  | some n => if n = "" then acc
      else { acc with drug_salts := acc.drug_salts ++
        [⟨drugbankId, jsOrNull s.id, n, jsOrNull s.unii, jsOrNull s.cas_number,
          jsOrNull s.inchikey, s.average_mass⟩] }
  | none => acc

/-- The body of the `insertOneDrug` transaction: the flat row first,
then every child row of the record (each child insert guarded by the
source's `if (x.name)` truthiness check). -/
def insertOneDrugBody (t : BuildTables) (drugbankId : String) (row : FlatDrugRow)
    (targets : List TargetEntry) (categories : List String)
    (carriers transporters : List TargetEntry) (salts : List SaltEntry) :
    Except SqlErr BuildTables := do
  let t1 ← insertDrugRow t row
  let t2 := targets.foldl (insTargetStep drugbankId) t1
  let t3 := categories.foldl (insCategoryStep drugbankId) t2
  let t4 := carriers.foldl (insCarrierStep drugbankId) t3
  let t5 := transporters.foldl (insTransporterStep drugbankId) t4
  let t6 := salts.foldl (insSaltStep drugbankId) t5
  pure t6

/-- `db.transaction(fn)` of better-sqlite3: the statements run as one
unit; when the body throws, everything is rolled back (the caller keeps
the pre-transaction tables) and the error is rethrown. -/
def runTransaction (t : BuildTables)
    (body : BuildTables → Except SqlErr BuildTables) : BuildTables × Option SqlErr :=
  match body t with
  | .ok t' => (t', none)
  | .error e => (t, some e)

/-- What the handler's `console` statements could emit per record: the
every-100 progress line, and the per-record error line the `catch`
intends (but never reaches, see `processEvt`). -/
inductive LogMsg where
  | progress (n : ℕ)
  | errorRecord (id : String)
  deriving DecidableEq, Repr

/-- The handler's mutable state: the tables, the `seenIds` set, the
committed-record counter and the emitted log. -/
structure BuildState where
  tables : BuildTables
  seen : List String
  count : ℕ
  log : List LogMsg
  deriving DecidableEq, Repr

/-- The targets the handler passes to the transaction
(`targets.filter(t => t.name)`). -/
def evtTargets (e : DrugEvt) : List TargetEntry :=
  e.targets.filter (fun tg => tg.name.isSome && tg.name != some "")

/-- The carriers the handler passes to the transaction. -/
def evtCarriers (e : DrugEvt) : List TargetEntry :=
  e.carriers.filter (fun c => c.name.isSome && c.name != some "")

/-- The transporters the handler passes to the transaction. -/
def evtTransporters (e : DrugEvt) : List TargetEntry :=
  e.transporters.filter (fun c => c.name.isSome && c.name != some "")

/-- The salts the handler passes to the transaction. -/
def evtSalts (e : DrugEvt) : List SaltEntry :=
  e.salts.filter (fun s => s.name.isSome && s.name != some "")

/-- The flat-row parameters the handler binds: `drug.name || null`,
`drug['half-life'] || null`, and the normalized half-life. -/
def evtRow (e : DrugEvt) (drugbankId : String) : FlatDrugRow :=
  { drugbank_id := drugbankId
    name := jsOrNull e.name
    half_life := jsOrNull e.half_life
    half_life_hours :=
      match e.half_life with
      | none => none
      | some s => parseHalfLifeToHours s }

/-- One `endElement: drug` callback.  Skips stubs without the type
marker, records without a (truthy) primary identifier, and duplicates —
all silently.  Otherwise the id is added to `seenIds` first, then the
record is committed in one transaction; on an insert error the
transaction rolls back and the rethrown error reaches the `catch`
block, whose log line reads the try-scoped `drugbankId` — a
`ReferenceError` in this strict-mode module — so the run aborts (the
returned flag is `true`) without logging. -/
def processEvt (st : BuildState) (e : DrugEvt) : BuildState × Bool :=
  match e.typeAttr with
  | none => (st, false)
  | some _ =>
    match getPrimaryDrugBankId e.ids with
    | none => (st, false)
    | some drugbankId =>
      if drugbankId = "" then (st, false)
      else if drugbankId ∈ st.seen then (st, false)
      else
        let st1 := { st with seen := drugbankId :: st.seen }
        match runTransaction st1.tables (fun t =>
            insertOneDrugBody t drugbankId (evtRow e drugbankId) (evtTargets e)
              e.categories (evtCarriers e) (evtTransporters e) (evtSalts e)) with
        | (t', none) =>
          ({ st1 with
              tables := t'
              count := st1.count + 1
              log := if (st1.count + 1) % 100 = 0 then
                LogMsg.progress (st1.count + 1) :: st1.log else st1.log }, false)
        | (_, some _) => (st1, true)

/-- The empty store the builder starts from. -/
def initBuildState : BuildState :=
  { tables := { drugs := [], drug_targets := [], drug_categories := [],
                drug_carriers := [], drug_transporters := [], drug_salts := [] },
    seen := [], count := 0, log := [] }

/-- Folding the event stream, aborting on a crash. -/
def ingest : BuildState → List DrugEvt → BuildState × Bool
  | st, [] => (st, false)
  | st, e :: l =>
    match processEvt st e with
    | (st', false) => ingest st' l
    | (st', true) => (st', true)

/-- The primary identifier under which an event would be committed: it
must carry the top-level marker and a truthy primary id. -/
def emittedId (e : DrugEvt) : Option String :=
  match e.typeAttr with
  | none => none
  | some _ =>
    match getPrimaryDrugBankId e.ids with
    | none => none
    | some i => if i = "" then none else some i

/-- Decomposition of a committable event's identifier. -/
theorem emittedId_some (e : DrugEvt) (i : String) (h : emittedId e = some i) :
    e.typeAttr ≠ none ∧ getPrimaryDrugBankId e.ids = some i ∧ i ≠ "" := by
  unfold emittedId at h
  cases hta : e.typeAttr with
  | none => rw [hta] at h; simp at h
  | some ta =>
    rw [hta] at h
    dsimp only at h
    cases hid : getPrimaryDrugBankId e.ids with
    | none => rw [hid] at h; simp at h
    | some j =>
      rw [hid] at h
      dsimp only at h
      by_cases hj : j = ""
      · rw [if_pos hj] at h; simp at h
      · rw [if_neg hj] at h
        injection h with h
        subst h
        exact ⟨by simp [hta], rfl, hj⟩

/-- A record with no committable identifier is skipped silently: the
state (tables, seen set, counter and log alike) is unchanged. -/
theorem processEvt_skip (st : BuildState) (e : DrugEvt) (h : emittedId e = none) :
    processEvt st e = (st, false) := by
  unfold emittedId at h
  unfold processEvt
  cases hta : e.typeAttr with
  | none => rfl
  | some ta =>
    rw [hta] at h
    dsimp only at h ⊢
    cases hid : getPrimaryDrugBankId e.ids with
    | none => rfl
    | some j =>
      rw [hid] at h
      dsimp only at h ⊢
      by_cases hj : j = ""
      · rw [if_pos hj]
      · rw [if_neg hj] at h; simp at h

/-- A record whose identifier is already in `seenIds` is skipped
silently. -/
theorem processEvt_dup (st : BuildState) (e : DrugEvt) (i : String)
    (hemit : emittedId e = some i) (hseen : i ∈ st.seen) :
    processEvt st e = (st, false) := by
  obtain ⟨hta, hid, hne⟩ := emittedId_some e i hemit
  unfold processEvt
  cases h2 : e.typeAttr with
  | none => rfl
  | some ta =>
    dsimp only
    rw [hid]
    dsimp only
    rw [if_neg hne, if_pos hseen]

/-- A fold whose step leaves the `drugs` table untouched leaves it
untouched. -/
theorem foldl_preserves_drugs {β : Type} (g : BuildTables → β → BuildTables)
    (hg : ∀ acc x, (g acc x).drugs = acc.drugs) :
    ∀ (l : List β) (acc : BuildTables), (l.foldl g acc).drugs = acc.drugs := by
  intro l
  induction l with
  | nil => intro acc; rfl
  | cons x l ih => intro acc; rw [List.foldl_cons, ih, hg]

/-- When the flat row binds a non-null name and a fresh key, the whole
transaction body succeeds, and the committed `drugs` table is the old
one plus that row. -/
theorem insertOneDrugBody_ok (t : BuildTables) (id : String) (row : FlatDrugRow)
    (tg : List TargetEntry) (cat : List String) (car tra : List TargetEntry)
    (sal : List SaltEntry) (hname : row.name ≠ none)
    (hpk : row.drugbank_id ∉ t.drugs.map (fun r => r.drugbank_id)) :
    ∃ t', insertOneDrugBody t id row tg cat car tra sal = .ok t' ∧
      t'.drugs = t.drugs ++ [row] := by
  have hrow : insertDrugRow t row = .ok { t with drugs := t.drugs ++ [row] } := by
    unfold insertDrugRow
    rw [if_neg hname, if_neg]
    intro hcon
    exact hpk (List.elem_iff.mp hcon)
  unfold insertOneDrugBody
  rw [hrow]
  refine ⟨_, rfl, ?_⟩
  rw [foldl_preserves_drugs (insSaltStep id) (fun acc s => by
      unfold insSaltStep
      cases hsn : s.name with
      | none => rfl
      | some n => by_cases hn : n = "" <;> simp [hn]),
    foldl_preserves_drugs (insTransporterStep id) (fun acc s => by
      unfold insTransporterStep
      cases hsn : s.name with
      | none => rfl
      | some n => by_cases hn : n = "" <;> simp [hn]),
    foldl_preserves_drugs (insCarrierStep id) (fun acc s => by
      unfold insCarrierStep
      cases hsn : s.name with
      | none => rfl
      | some n => by_cases hn : n = "" <;> simp [hn]),
    foldl_preserves_drugs (insCategoryStep id) (fun acc c => rfl),
    foldl_preserves_drugs (insTargetStep id) (fun acc s => by
      unfold insTargetStep
      cases hsn : s.name with
      | none => rfl
      | some n => by_cases hn : n = "" <;> simp [hn])]

/-- A fresh, insertable record is committed in one unit and the run
continues. -/
theorem processEvt_commit (st : BuildState) (e : DrugEvt) (i : String) (t' : BuildTables)
    (hemit : emittedId e = some i) (hseen : i ∉ st.seen)
    (hbody : insertOneDrugBody st.tables i (evtRow e i) (evtTargets e) e.categories
      (evtCarriers e) (evtTransporters e) (evtSalts e) = .ok t') :
    processEvt st e =
      ({ tables := t', seen := i :: st.seen, count := st.count + 1,
         log := if (st.count + 1) % 100 = 0 then
           LogMsg.progress (st.count + 1) :: st.log else st.log }, false) := by
  obtain ⟨hta, hid, hne⟩ := emittedId_some e i hemit
  unfold processEvt
  cases h2 : e.typeAttr with
  | none => exact absurd h2 hta
  | some ta =>
    dsimp only
    rw [hid]
    dsimp only
    rw [if_neg hne, if_neg hseen]
    unfold runTransaction
    dsimp only
    rw [hbody]

/-- A fresh record whose insert throws leaves the tables untouched
(rollback), keeps the id in `seenIds`, logs nothing — and crashes the
run (the `catch` block's `ReferenceError`). -/
theorem processEvt_crash (st : BuildState) (e : DrugEvt) (i : String) (err : SqlErr)
    (hemit : emittedId e = some i) (hseen : i ∉ st.seen)
    (hbody : insertOneDrugBody st.tables i (evtRow e i) (evtTargets e) e.categories
      (evtCarriers e) (evtTransporters e) (evtSalts e) = .error err) :
    processEvt st e = ({ st with seen := i :: st.seen }, true) := by
  obtain ⟨hta, hid, hne⟩ := emittedId_some e i hemit
  unfold processEvt
  cases h2 : e.typeAttr with
  | none => exact absurd h2 hta
  | some ta =>
    dsimp only
    rw [hid]
    dsimp only
    rw [if_neg hne, if_neg hseen]
    unfold runTransaction
    dsimp only
    rw [hbody]

/-- Unfolding `dedupAux` on an already-seen head. -/
theorem dedupAux_cons_mem [DecidableEq α] (seen : List α) (x : α) (l : List α)
    (h : x ∈ seen) : dedupAux seen (x :: l) = dedupAux seen l := by
  show (if x ∈ seen then dedupAux seen l else x :: dedupAux (x :: seen) l) = _
  rw [if_pos h]

/-- Unfolding `dedupAux` on a fresh head. -/
theorem dedupAux_cons_not_mem [DecidableEq α] (seen : List α) (x : α) (l : List α)
    (h : x ∉ seen) : dedupAux seen (x :: l) = x :: dedupAux (x :: seen) l := by
  show (if x ∈ seen then dedupAux seen l else x :: dedupAux (x :: seen) l) = _
  rw [if_neg h]

/-- Core run lemma: over events whose committable records bind a truthy
name, ingestion never crashes and appends to the `drugs` table exactly
the first occurrence of every valid identifier not yet in `seenIds`. -/
theorem ingest_ids (l : List DrugEvt) :
    ∀ (st : BuildState),
      (∀ e ∈ l, emittedId e ≠ none → jsOrNull e.name ≠ none) →
      (∀ i ∈ st.tables.drugs.map (fun r => r.drugbank_id), i ∈ st.seen) →
      (ingest st l).2 = false ∧
      (ingest st l).1.tables.drugs.map (fun r => r.drugbank_id) =
        st.tables.drugs.map (fun r => r.drugbank_id) ++
          dedupAux st.seen (l.filterMap emittedId) := by
  induction l with
  | nil =>
    intro st _ _
    exact ⟨rfl, by simp [ingest, dedupAux]⟩
  | cons e l ih =>
    intro st hnames hinv
    cases hemit : emittedId e with
    | none =>
      unfold ingest
      rw [processEvt_skip st e hemit]
      dsimp only
      simp only [List.filterMap_cons, hemit]
      exact ih st (fun e' he' => hnames e' (List.mem_cons_of_mem _ he')) hinv
    | some i =>
      by_cases hseen : i ∈ st.seen
      · unfold ingest
        rw [processEvt_dup st e i hemit hseen]
        dsimp only
        simp only [List.filterMap_cons, hemit, dedupAux_cons_mem _ _ _ hseen]
        exact ih st (fun e' he' => hnames e' (List.mem_cons_of_mem _ he')) hinv
      · have hname : jsOrNull e.name ≠ none :=
          hnames e (List.mem_cons_self e l) (by rw [hemit]; simp)
        have hpk : i ∉ st.tables.drugs.map (fun r => r.drugbank_id) :=
          fun hmem => hseen (hinv i hmem)
        obtain ⟨t', hbody, hdrugs⟩ :=
          insertOneDrugBody_ok st.tables i (evtRow e i) (evtTargets e) e.categories
            (evtCarriers e) (evtTransporters e) (evtSalts e) hname hpk
        have hproc := processEvt_commit st e i t' hemit hseen hbody
        unfold ingest
        rw [hproc]
        dsimp only
        have hnew := ih
          { tables := t', seen := i :: st.seen, count := st.count + 1,
            log := if (st.count + 1) % 100 = 0 then
              LogMsg.progress (st.count + 1) :: st.log else st.log }
          (fun e' he' => hnames e' (List.mem_cons_of_mem _ he'))
          (by intro j hj
              dsimp only at hj
              rw [hdrugs] at hj
              simp only [List.map_append, List.mem_append] at hj
              rcases hj with hj | hj
              · exact List.mem_cons_of_mem _ (hinv j hj)
              · simp only [List.map_cons, List.map_nil, List.mem_singleton] at hj
                subst hj
                exact List.mem_cons_self _ _)
        refine ⟨hnew.1, ?_⟩
        rw [hnew.2]
        dsimp only
        rw [hdrugs]
        simp only [List.filterMap_cons, hemit, dedupAux_cons_not_mem _ _ _ hseen]
        simp [evtRow, List.append_assoc]

/-- Claim C5 (confirmed): over a source whose committable records carry
a name, no primary identifier is committed twice — the committed
identifiers are exactly the first-occurrence deduplication of the valid
identifiers the source emits, each appearing exactly once no matter how
often the source re-emits it. -/
theorem c5_dedup_commit (l : List DrugEvt)
    (hnames : ∀ e ∈ l, emittedId e ≠ none → jsOrNull e.name ≠ none) :
    (ingest initBuildState l).2 = false ∧
    (ingest initBuildState l).1.tables.drugs.map (fun r => r.drugbank_id) =
      dedupKeepFirst (l.filterMap emittedId) ∧
    ((ingest initBuildState l).1.tables.drugs.map (fun r => r.drugbank_id)).Nodup ∧
    ∀ e ∈ l, ∀ i, emittedId e = some i →
      i ∈ (ingest initBuildState l).1.tables.drugs.map (fun r => r.drugbank_id) := by
  obtain ⟨hok, hids⟩ := ingest_ids l initBuildState hnames (by simp [initBuildState])
  have hids' : (ingest initBuildState l).1.tables.drugs.map (fun r => r.drugbank_id) =
      dedupKeepFirst (l.filterMap emittedId) := by
    rw [hids]
    simp [initBuildState, dedupKeepFirst]
  refine ⟨hok, hids', ?_, ?_⟩
  · rw [hids']
    exact nodup_dedupKeepFirst _
  · intro e he i hi
    rw [hids', mem_dedupKeepFirst]
    exact List.mem_filterMap.mpr ⟨e, he, hi⟩

/-- A well-formed record: primary-flagged id "DB900", a name, no
half-life text, no child collections. -/
def evtA : DrugEvt :=
  { typeAttr := some "small molecule",
    ids := some [.node (some "true") "DB900"],
    name := some "Alpha", half_life := none,
    targets := [], categories := [], carriers := [], transporters := [], salts := [] }

/-- Witness for C5: a source emitting the same record twice commits its
identifier exactly once, without crashing. -/
theorem c5_dedup_commit_witness :
    (∀ e ∈ [evtA, evtA], emittedId e ≠ none → jsOrNull e.name ≠ none) ∧
    ((ingest initBuildState [evtA, evtA]).2 = false ∧
     (ingest initBuildState [evtA, evtA]).1.tables.drugs.map (fun r => r.drugbank_id) =
       dedupKeepFirst ([evtA, evtA].filterMap emittedId) ∧
     ((ingest initBuildState [evtA, evtA]).1.tables.drugs.map
        (fun r => r.drugbank_id)).Nodup ∧
     ∀ e ∈ [evtA, evtA], ∀ i, emittedId e = some i →
       i ∈ (ingest initBuildState [evtA, evtA]).1.tables.drugs.map
         (fun r => r.drugbank_id)) :=
  ⟨by decide, c5_dedup_commit [evtA, evtA] (by decide)⟩

/-- A record whose `<name>` is missing: binding `drug.name || null`
violates `name TEXT NOT NULL`, so its insert throws mid-transaction. -/
def evtBadName : DrugEvt :=
  { typeAttr := some "biotech",
    ids := some [.node (some "true") "DBX1"],
    name := none, half_life := none,
    targets := [{ id := none, name := some "Target T1", organism := none,
                  known_action := none }],
    categories := ["Enzyme Inhibitors"], carriers := [], transporters := [], salts := [] }

/-- Claim C6 (code bug): per record the commit is genuinely
all-or-nothing — a crashing event leaves the tables exactly as before
(rollback; no partial flat or child rows), and a non-crashing event
either changes nothing or commits the whole one-record transaction
body.  But "ingestion continues with the next record" fails: the
`catch` block references the try-scoped `drugbankId` and raises a
`ReferenceError`, so a record with a missing name aborts the run — the
concrete two-event stream below commits nothing and never reaches its
second, well-formed record. -/
theorem c6_atomic_commit_crash :
    (∀ (st : BuildState) (e : DrugEvt),
      ((processEvt st e).2 = true → (processEvt st e).1.tables = st.tables) ∧
      ((processEvt st e).2 = false →
        (processEvt st e).1.tables = st.tables ∨
        ∃ i, emittedId e = some i ∧
          insertOneDrugBody st.tables i (evtRow e i) (evtTargets e) e.categories
            (evtCarriers e) (evtTransporters e) (evtSalts e) =
            Except.ok (processEvt st e).1.tables)) ∧
    ingest initBuildState [evtBadName, evtA] =
      ({ tables := initBuildState.tables, seen := ["DBX1"], count := 0, log := [] },
        true) := by
  constructor
  · intro st e
    cases hemit : emittedId e with
    | none =>
      rw [processEvt_skip st e hemit]
      exact ⟨fun h => by simp at h, fun _ => Or.inl rfl⟩
    | some i =>
      by_cases hseen : i ∈ st.seen
      · rw [processEvt_dup st e i hemit hseen]
        exact ⟨fun h => by simp at h, fun _ => Or.inl rfl⟩
      · cases hbody : insertOneDrugBody st.tables i (evtRow e i) (evtTargets e)
            e.categories (evtCarriers e) (evtTransporters e) (evtSalts e) with
        | ok t' =>
          rw [processEvt_commit st e i t' hemit hseen hbody]
          refine ⟨fun h => by simp at h, fun _ => Or.inr ⟨i, rfl, ?_⟩⟩
          simpa using hbody
        | error err =>
          rw [processEvt_crash st e i err hemit hseen hbody]
          exact ⟨fun _ => rfl, fun h => by simp at h⟩
  · decide

/-- Claim C8 (confirmed): the extractor returns the first
primary-flagged identifier entry when one exists, the first entry
otherwise, `none` for an absent field — and the handler drops (never
commits, nothing changed) a record whose identifier field is absent. -/
theorem c8_primary_identifier :
    getPrimaryDrugBankId none = none ∧
    (∀ (l : List IdVal) (en : IdVal), l.find? isPrimaryFlagged = some en →
      getPrimaryDrugBankId (some l) = some (idValText en)) ∧
    (∀ (x : IdVal) (xs : List IdVal), (x :: xs).find? isPrimaryFlagged = none →
      getPrimaryDrugBankId (some (x :: xs)) = some (idValText x)) ∧
    (∀ (st : BuildState) (e : DrugEvt), e.ids = none →
      processEvt st e = (st, false)) := by
  refine ⟨rfl, ?_, ?_, ?_⟩
  · intro l en h
    unfold getPrimaryDrugBankId
    dsimp only
    rw [h]
  · intro x xs h
    unfold getPrimaryDrugBankId
    dsimp only
    rw [h]
  · intro st e hids
    apply processEvt_skip
    unfold emittedId
    cases hta : e.typeAttr with
    | none => rfl
    | some ta =>
      dsimp only
      rw [hids]
      rfl

/-- Claim C9 as amended: skipped records leave no trace — a record
without a committable identifier or with an already-seen identifier is
skipped with the whole state (log included) unchanged, and the only log
line any event can add is the every-100 progress counter, never a
per-unit trace (the error path crashes before its log line runs). -/
theorem c9_silent_skips :
    (∀ (st : BuildState) (e : DrugEvt), emittedId e = none →
      processEvt st e = (st, false)) ∧
    (∀ (st : BuildState) (e : DrugEvt) (i : String), emittedId e = some i →
      i ∈ st.seen → processEvt st e = (st, false)) ∧
    (∀ (st : BuildState) (e : DrugEvt),
      (processEvt st e).1.log = st.log ∨
      ∃ n, (processEvt st e).1.log = LogMsg.progress n :: st.log) := by
  refine ⟨processEvt_skip, processEvt_dup, ?_⟩
  intro st e
  cases hemit : emittedId e with
  | none =>
    rw [processEvt_skip st e hemit]
    exact Or.inl rfl
  | some i =>
    by_cases hseen : i ∈ st.seen
    · rw [processEvt_dup st e i hemit hseen]
      exact Or.inl rfl
    · cases hbody : insertOneDrugBody st.tables i (evtRow e i) (evtTargets e)
          e.categories (evtCarriers e) (evtTransporters e) (evtSalts e) with
      | ok t' =>
        rw [processEvt_commit st e i t' hemit hseen hbody]
        by_cases hc : (st.count + 1) % 100 = 0
        · exact Or.inr ⟨st.count + 1, by simp [hc]⟩
        · exact Or.inl (by simp [hc])
      | error err =>
        rw [processEvt_crash st e i err hemit hseen hbody]
        exact Or.inl rfl

/-- Claim C9, counterexample: a duplicate record is skipped (two
emissions, one committed row) while the log stays empty — no trace
identifies the skipped unit, refuting "no record is dropped without a
log trace". -/
theorem c9_counterexample :
    (ingest initBuildState [evtA, evtA]).1.tables.drugs.length = 1 ∧
    (ingest initBuildState [evtA, evtA]).1.log = [] := by decide

/-! ## Raw rows and the safe JSON layer

Model of `safeJsonParse` and `parseDrugRow` of the SQLite parser at the
raw-text level: a genuine JSON parser plays the role of `JSON.parse`
(value grammar with objects, arrays, strings with escapes, numbers,
literals; rejects trailing garbage; a `\u` escape is decoded without
surrogate-pair pairing, which no claim exercises). -/

/-- JSON document values. -/
inductive Json where
  | null
  | bool (b : Bool)
  | num (q : ℚ)
  | str (s : String)
  | arr (items : List Json)
  | obj (fields : List (String × Json))

/-- JSON insignificant whitespace. -/
def jsonWs (c : Char) : Bool := c = ' ' || c = '\t' || c = '\n' || c = '\r'

/-- Skip insignificant whitespace. -/
def skipJsonWs (cs : List Char) : List Char := cs.dropWhile jsonWs

/-- Value of one hexadecimal digit. -/
def hexVal (c : Char) : Option ℕ :=
  if '0' ≤ c ∧ c ≤ '9' then some (c.toNat - '0'.toNat)
  else if 'a' ≤ c ∧ c ≤ 'f' then some (c.toNat - 'a'.toNat + 10)
  else if 'A' ≤ c ∧ c ≤ 'F' then some (c.toNat - 'A'.toNat + 10)
  else none

/-- Body of a JSON string after the opening quote: the decoded
characters and the rest after the closing quote. -/
def parseJsonStrBody : List Char → Option (List Char × List Char)
  | [] => none
  | '"' :: rest => some ([], rest)
  | '\\' :: rest =>
    match rest with
    | [] => none
    | 'u' :: h1 :: h2 :: h3 :: h4 :: rest' =>
      match hexVal h1, hexVal h2, hexVal h3, hexVal h4 with
      | some a, some b, some c, some d =>
        (parseJsonStrBody rest').map
          (fun (cs, r) => (Char.ofNat (((a * 16 + b) * 16 + c) * 16 + d) :: cs, r))
      | _, _, _, _ => none
    | c :: rest' =>
      let decoded : Option Char :=
        if c = '"' then some '"'
        else if c = '\\' then some '\\'
        else if c = '/' then some '/'
        else if c = 'b' then some '\x08'
        else if c = 'f' then some '\x0c'
        else if c = 'n' then some '\n'
        else if c = 'r' then some '\r'
        else if c = 't' then some '\t'
        else none
      match decoded with
      | some d => (parseJsonStrBody rest').map (fun (cs, r) => (d :: cs, r))
      | none => none
  | c :: rest =>
    if c.toNat < 32 then none
    else (parseJsonStrBody rest).map (fun (cs, r) => (c :: cs, r))

/-- A JSON number (sign, integer part without leading zeros, optional
fraction, optional exponent), as an exact rational. -/
def parseJsonNum (cs : List Char) : Option (ℚ × List Char) :=
  let (neg, cs1) :=
    match cs with
    | '-' :: r => (true, r)
    | _ => (false, cs)
  let ds := cs1.takeWhile isDigitChar
  if ds = [] then none
  else if 1 < ds.length ∧ ds.headI = '0' then none
  else
    let cs2 := cs1.drop ds.length
    let intPart : ℚ := (digitsVal ds : ℚ)
    let fracStep : Option (ℚ × List Char) :=
      match cs2 with
      | '.' :: r =>
        let fs := r.takeWhile isDigitChar
        if fs = [] then none
        else some (intPart + (digitsVal fs : ℚ) / ((10 : ℚ) ^ fs.length),
          r.drop fs.length)
      | _ => some (intPart, cs2)
    match fracStep with
    | none => none
    | some (mantissa, cs3) =>
      let expStep : Option (ℚ × List Char) :=
        match cs3 with
        | 'e' :: r | 'E' :: r =>
          let (eneg, r1) :=
            match r with
            | '+' :: r' => (false, r')
            | '-' :: r' => (true, r')
            | _ => (false, r)
          let es := r1.takeWhile isDigitChar
          if es = [] then none
          else
            let scale : ℚ := (10 : ℚ) ^ digitsVal es
            some (if eneg then mantissa / scale else mantissa * scale,
              r1.drop es.length)
        | _ => some (mantissa, cs3)
      match expStep with
      | none => none
      | some (v, cs4) => some (if neg then -v else v, cs4)

mutual

/-- One JSON value at the head of the input (fuel decreases at every
recursive step; values consume at least one character each, so the fuel
of `jsonParse` below always suffices). -/
def parseJsonVal : ℕ → List Char → Option (Json × List Char)
  | 0, _ => none
  | f + 1, cs =>
    match skipJsonWs cs with
    | [] => none
    | 'n' :: r => (leadMatch ['u', 'l', 'l'] r).map (fun r' => (Json.null, r'))
    | 't' :: r => (leadMatch ['r', 'u', 'e'] r).map (fun r' => (Json.bool true, r'))
    | 'f' :: r => (leadMatch ['a', 'l', 's', 'e'] r).map (fun r' => (Json.bool false, r'))
    | '"' :: r => (parseJsonStrBody r).map (fun (cs', r') => (Json.str ⟨cs'⟩, r'))
    | '[' :: r =>
      match skipJsonWs r with
      | ']' :: r' => some (Json.arr [], r')
      | r' => (parseJsonItems f r').map (fun (es, r'') => (Json.arr es, r''))
    | '\x7b' :: r =>
      match skipJsonWs r with
      | '\x7d' :: r' => some (Json.obj [], r')
      | r' => (parseJsonFields f r').map (fun (fs, r'') => (Json.obj fs, r''))
    | cs' => (parseJsonNum cs').map (fun (q, r') => (Json.num q, r'))

/-- The elements of a non-empty array, up to and including `]`. -/
def parseJsonItems : ℕ → List Char → Option (List Json × List Char)
  | 0, _ => none
  | f + 1, cs => do
    let (v, r) ← parseJsonVal f cs
    match skipJsonWs r with
    | ',' :: r' =>
      let (vs, r'') ← parseJsonItems f r'
      pure (v :: vs, r'')
    | ']' :: r' => pure ([v], r')
    | _ => none

/-- The fields of a non-empty object, up to and including the closing
brace. -/
def parseJsonFields : ℕ → List Char → Option (List (String × Json) × List Char)
  | 0, _ => none
  | f + 1, cs =>
    match skipJsonWs cs with
    | '"' :: r => do
      let (k, r1) ← parseJsonStrBody r
      match skipJsonWs r1 with
      | ':' :: r2 => do
        let (v, r3) ← parseJsonVal f r2
        match skipJsonWs r3 with
        | ',' :: r4 =>
          let (fs, r5) ← parseJsonFields f r4
          pure ((⟨k⟩, v) :: fs, r5)
        | '\x7d' :: r4 => pure ([(⟨k⟩, v)], r4)
        | _ => none
      | _ => none
    | _ => none

end

/-- `JSON.parse(s)`: one value, optionally surrounded by whitespace,
nothing after it; anything else raises a `SyntaxError`. -/
def jsonParse (s : String) : Except String Json :=
  match parseJsonVal (2 * s.length + 2) s.data with
  | none => .error "Unexpected token in JSON"
  | some (v, rest) =>
    if skipJsonWs rest = [] then .ok v
    else .error "Unexpected non-whitespace character after JSON"

/-- Model of `safeJsonParse(jsonString)`: an absent or empty ("falsy")
column yields `[]`; a parse error is caught and yields `[]`; otherwise
the parsed value. -/
def safeJsonParse (jsonString : Option String) : Json :=
  match jsonString with
  | none => Json.arr []
  | some s =>
    if s = "" then Json.arr []
    else
      match jsonParse s with
      | .ok v => v
      | .error _ => Json.arr []

/-- A raw `drugs` row as SQLite hands it to `parseDrugRow`: the
serialized collection columns as nullable text. -/
structure RawDrugRow where
  drugbank_id : String
  name : Option String
  half_life : Option String
  half_life_hours : Option ℚ
  all_ids : Option String
  groups : Option String
  categories : Option String
  synonyms : Option String
  calculated_properties : Option String
  external_identifiers : Option String
  drug_interactions : Option String
  food_interactions : Option String
  targets : Option String
  enzymes : Option String
  carriers : Option String
  transporters : Option String
  pathways : Option String
  products : Option String
  atc_codes : Option String
  deriving DecidableEq, Repr

/-- The row after `parseDrugRow`: every serialized collection column
decoded. -/
structure ParsedDrug where
  drugbank_id : String
  name : Option String
  half_life : Option String
  half_life_hours : Option ℚ
  all_ids : Json
  groups : Json
  categories : Json
  synonyms : Json
  calculated_properties : Json
  external_identifiers : Json
  drug_interactions : Json
  food_interactions : Json
  targets : Json
  enzymes : Json
  carriers : Json
  transporters : Json
  pathways : Json
  products : Json
  atc_codes : Json

/-- Model of `parseDrugRow(row)`: spread the scalars, decode each of the
fifteen serialized columns through `safeJsonParse`. -/
def parseDrugRow (row : RawDrugRow) : ParsedDrug :=
  { drugbank_id := row.drugbank_id
    name := row.name
    half_life := row.half_life
    half_life_hours := row.half_life_hours
    all_ids := safeJsonParse row.all_ids
    groups := safeJsonParse row.groups
    categories := safeJsonParse row.categories
    synonyms := safeJsonParse row.synonyms
    calculated_properties := safeJsonParse row.calculated_properties
    external_identifiers := safeJsonParse row.external_identifiers
    drug_interactions := safeJsonParse row.drug_interactions
    food_interactions := safeJsonParse row.food_interactions
    targets := safeJsonParse row.targets
    enzymes := safeJsonParse row.enzymes
    carriers := safeJsonParse row.carriers
    transporters := safeJsonParse row.transporters
    pathways := safeJsonParse row.pathways
    products := safeJsonParse row.products
    atc_codes := safeJsonParse row.atc_codes }

/-- `getDrugById` at the raw level: the primary-key lookup followed by
`parseDrugRow` (total — no error can escape it). -/
def getDrugByIdRaw (rows : List RawDrugRow) (id : String) : Option ParsedDrug :=
  (rows.find? (fun r => r.drugbank_id == id)).map parseDrugRow

/-- Claim C10 (confirmed): a serialized collection column that is null,
empty, or malformed JSON decodes to the empty collection `[]` rather
than an error, `parseDrugRow` therefore yields `[]` for that collection,
and the `get(id)` lookup on a store holding such a row still returns the
parsed row (no exception path exists). -/
theorem c10_corrupt_json_safe (s : Option String)
    (h : s = none ∨ s = some "" ∨ ∃ err, jsonParse (s.getD "") = Except.error err) :
    safeJsonParse s = Json.arr [] ∧
    (∀ row : RawDrugRow, row.targets = s → (parseDrugRow row).targets = Json.arr []) ∧
    (∀ row : RawDrugRow, getDrugByIdRaw [row] row.drugbank_id = some (parseDrugRow row)) := by
  have hsafe : safeJsonParse s = Json.arr [] := by
    rcases h with rfl | rfl | ⟨err, herr⟩
    · rfl
    · rfl
    · unfold safeJsonParse
      cases s with
      | none => rfl
      | some t =>
        dsimp only
        by_cases ht : t = ""
        · rw [if_pos ht]
        · rw [if_neg ht]
          simp only [Option.getD_some] at herr
          rw [herr]
  refine ⟨hsafe, ?_, ?_⟩
  · intro row hrow
    show safeJsonParse row.targets = Json.arr []
    rw [hrow]
    exact hsafe
  · intro row
    unfold getDrugByIdRaw
    simp [List.find?]

/-- Witness for C10: the malformed column text "[1," makes the raw
parser fail, and the wrapped parse yields the empty collection. -/
theorem c10_corrupt_json_safe_witness :
    ((some "[1," = none ∨ some "[1," = some "" ∨
      ∃ err, jsonParse ((some "[1,").getD "") = Except.error err) ∧
     safeJsonParse (some "[1,") = Json.arr []) :=
  ⟨Or.inr (Or.inr ⟨"Unexpected token in JSON", rfl⟩),
   (c10_corrupt_json_safe (some "[1,")
      (Or.inr (Or.inr ⟨"Unexpected token in JSON", rfl⟩))).1⟩
